import Mathlib

/-!
Verification of the MoonCard reconciliation engine against its specification.

The development shallowly embeds the TypeScript sources:
- app/lib/lunarPhase.ts        (normalizeDeg, phaseNameFromDeg)
- app/providers/pyMoon.ts      (adjustMoonsetForNight)
- app/hooks/useLunar.ts        (useMoonToday and its pick helpers)
- app/components/MoonGraph.tsx (cycle position mapping)
- app/components/TwilightPhaseBar.tsx (weighted twilight position)

Conventions: JavaScript numbers are modelled by rationals, instants by rational
epoch values, strings by lists of characters, fallible provider calls by Except.
ECMAScript Date UTC day arithmetic is modelled by an explicit proleptic
Gregorian day-number conversion (daysFromCivil / civilFromDays below).
-/

-- ===================== DEFINITIONS =====================

/-- Truncating division of a rational toward zero, as the ECMAScript modulo
operator uses for quotients. -/
def jsTrunc (x : ℚ) : ℤ := x.num.tdiv x.den

/-- Remainder with the sign of the dividend, modelling the ECMAScript binary
percent operator on numbers (restricted to rationals). -/
def jsRem (a b : ℚ) : ℚ := a - b * (jsTrunc (a / b) : ℤ)

/-- Model of normalizeDeg from app/lib/lunarPhase.ts:
return ((deg percent 360) + 360) percent 360. -/
def normalizeDeg (deg : ℚ) : ℚ := jsRem (jsRem deg 360 + 360) 360

/-- The eight displayable lunar phase names of app/lib/lunarPhase.ts. -/
def phaseNames : List String :=
  ["New Moon", "First Quarter", "Full Moon", "Last Quarter",
   "Waxing Crescent", "Waxing Gibbous", "Waning Gibbous", "Waning Crescent"]

/-- Model of phaseNameFromDeg from app/lib/lunarPhase.ts. The none input models
a null or undefined argument. -/
def phaseNameFromDeg (deg : Option ℚ) (epsilonDeg : ℚ := 5) : Option String :=
  match deg with
  | none => none
  | some deg =>
    let d := normalizeDeg deg
    if d ≤ epsilonDeg ∨ 360 - epsilonDeg ≤ d then some "New Moon"
    else if |d - 90| ≤ epsilonDeg then some "First Quarter"
    else if |d - 180| ≤ epsilonDeg then some "Full Moon"
    else if |d - 270| ≤ epsilonDeg then some "Last Quarter"
    else if 0 < d ∧ d < 90 then some "Waxing Crescent"
    else if 90 < d ∧ d < 180 then some "Waxing Gibbous"
    else if 180 < d ∧ d < 270 then some "Waning Gibbous"
    else if 270 < d ∧ d < 360 then some "Waning Crescent"
    else none

/-- Day number (days since 1970-01-01) of a proleptic-Gregorian civil date with
month in 1..12, modelling ECMAScript Date UTC day arithmetic. March-based
decomposition: within a 400-year era the first three 100-year blocks have 36524
days and the last 36525; within a block each 4-year quad has 1461 days except a
short final one; within a quad the long (366-day) March-year is the last. -/
def daysFromCivil (y m d : Int) : Int :=
  let yy := y - (if m ≤ 2 then 1 else 0)
  let era := yy / 400
  let yoe := yy % 400
  let cent := yoe / 100
  let r := yoe % 100
  let quad := r / 4
  let yiq := r % 4
  let mp := (m + 9) % 12
  let doy := (153 * mp + 2) / 5 + d - 1
  let doe := 36524 * cent + 1461 * quad + 365 * yiq + doy
  era * 146097 + doe - 719468

/-- Era, century-in-era, quad-in-century, year-in-quad and day-of-year of a day
number (March-based), the auxiliary decomposition inverse to daysFromCivil. -/
def civilParts (z : Int) : Int × Int × Int × Int × Int :=
  let z' := z + 719468
  let era := z' / 146097
  let doe := z' % 146097
  let cent := if 109572 ≤ doe then 3 else doe / 36524
  let dc := doe - 36524 * cent
  let quad := dc / 1461
  let dq := dc % 1461
  let yiq := if 1095 ≤ dq then 3 else dq / 365
  let doy := dq - 365 * yiq
  (era, cent, quad, yiq, doy)

/-- Assemble the (year, month, day) civil date from era, century, quad,
year-in-quad and day-of-year parts. -/
def civilAssemble (era cent quad yiq doy : Int) : Int × Int × Int :=
  let y := era * 400 + cent * 100 + quad * 4 + yiq
  let mp := (5 * doy + 2) / 153
  let d := doy - (153 * mp + 2) / 5 + 1
  let m := mp + (if mp < 10 then 3 else -9)
  (y + (if m ≤ 2 then 1 else 0), m, d)

/-- Civil date (year, month, day) of a day number since 1970-01-01 in the
proleptic Gregorian calendar, modelling the ECMAScript getUTCFullYear,
getUTCMonth and getUTCDate reading of an epoch instant. -/
def civilFromDays (z : Int) : Int × Int × Int :=
  let p := civilParts z
  civilAssemble p.1 p.2.1 p.2.2.1 p.2.2.2.1 p.2.2.2.2

/-- Day number of Date.UTC(y, m - 1, d) divided by one day, including the
ECMAScript mapping of two-digit years to 1900..1999 and the month overflow
normalization of MakeDay. -/
def jsEpochDays (y m d : Int) : Int :=
  let yy := if 0 ≤ y ∧ y ≤ 99 then y + 1900 else y
  let mi := m - 1
  let ya := yy + mi / 12
  let ma := mi % 12
  daysFromCivil ya (ma + 1) 1 + (d - 1)

/-- Clamp a rational into the unit interval, modelling clamp01 of
MoonGraph.tsx. -/
def clamp01 (n : ℚ) : ℚ := max 0 (min 1 n)

/-- Model of the standard rise/set mapping with padding of MoonGraph.tsx
(the branch taken when the below-horizon gap branch does not apply): with
span = set - rise positive, pad = span / 2, the position is
(now - (rise - pad)) / ((set + pad) - (rise - pad)); otherwise the initial
default 0.25 is kept. The final clamp01 of the component is applied by
cyclePosition below. -/
def riseSetT (rise setE : Option ℚ) (now : ℚ) : ℚ :=
  match rise, setE with
  | some r, some s =>
    let span := s - r
    if 0 < span then
      let pad := span / 2
      let start := r - pad
      let stop := s + pad
      let total := stop - start
      if 0 < total then (now - start) / total else 0.25
    else 0.25
  | _, _ => 0.25

/-- Model of the cycle position computation of MoonAltitudeGraph
(MoonGraph.tsx lines 107 to 153). The none inputs model missing or
unparseable ISO strings; the gap branch applies when now is between the
previous set and the next rise inclusive. -/
def cyclePosition (rise setE prevSet nextRise : Option ℚ) (now : ℚ) : ℚ :=
  let base : ℚ :=
    match prevSet, nextRise with
    | some ps, some nr =>
      if ps ≤ now ∧ now ≤ nr then
        let span := nr - ps
        let pct := if 0 < span then (now - ps) / span else 0
        0.75 + pct * 0.25
      else riseSetT rise setE now
    | _, _ => riseSetT rise setE now
  clamp01 base

/-- Reference rise/set branch following the words of the specification for
claim C5. -/
def specRiseSet (rise setE : Option ℚ) (now : ℚ) : ℚ :=
  match rise, setE with
  | some r, some s =>
    let pad := (s - r) / 2
    clamp01 ((now - (r - pad)) / ((s + pad) - (r - pad)))
  | _, _ => 0.25

/-- Reference mapper following the words of the specification for claim C5:
the gap branch applies only when now lies strictly between the prior set and
the next rise; otherwise the padded rise/set formula whenever rise and set
are both known; otherwise 0.25. -/
def specCyclePosition (rise setE prevSet nextRise : Option ℚ) (now : ℚ) : ℚ :=
  match prevSet, nextRise with
  | some ps, some nr =>
    if ps < now ∧ now < nr then 0.75 + 0.25 * ((now - ps) / (nr - ps))
    else specRiseSet rise setE now
  | _, _ => specRiseSet rise setE now

/-- Amended reference rise/set branch: the padded formula is used only when
rise is strictly before set. -/
def specRiseSetFixed (rise setE : Option ℚ) (now : ℚ) : ℚ :=
  match rise, setE with
  | some r, some s =>
    if r < s then
      let pad := (s - r) / 2
      clamp01 ((now - (r - pad)) / ((s + pad) - (r - pad)))
    else 0.25
  | _, _ => 0.25

/-- Amended reference mapper for claim C5: the gap branch applies when now is
between prior set and next rise with the boundaries included (with elapsed
fraction 0 for a degenerate gap), and the whole value is clamped to the unit
interval. -/
def specCyclePositionFixed (rise setE prevSet nextRise : Option ℚ) (now : ℚ) : ℚ :=
  clamp01 (match prevSet, nextRise with
  | some ps, some nr =>
    if ps ≤ now ∧ now ≤ nr then
      0.75 + 0.25 * (if ps < nr then (now - ps) / (nr - ps) else 0)
    else specRiseSetFixed rise setE now
  | _, _ => specRiseSetFixed rise setE now)

/-- One labeled twilight interval as delivered to TwilightPhaseBar, with the
start and end instants already parsed to rational epoch values. -/
structure TwiSegment where
  phase : String
  startLocal : ℚ
  endLocal : ℚ
deriving DecidableEq

/-- Model of the PHASE_WEIGHTS table of TwilightPhaseBar.tsx together with the
default weight 1 for an unknown phase key. -/
def PHASE_WEIGHTS (p : String) : ℚ :=
  if p = "dark" then 0.45
  else if p = "astronomical" then 1.6
  else if p = "nautical" then 1.35
  else if p = "civil" then 1.25
  else if p = "day" then 0.55
  else 1

/-- A mapped segment of TwilightPhaseBar.tsx carrying its parsed bounds, its
clamped duration and its phase weight. -/
structure WSeg where
  phase : String
  segStart : ℚ
  segEnd : ℚ
  durationMs : ℚ
  weight : ℚ
deriving DecidableEq

/-- Model of the weightedSegments computation of TwilightPhaseBar.tsx: map
each segment to its duration (clamped at zero) and weight, then drop segments
with non-positive duration. -/
def weightedSegments (segs : List TwiSegment) : List WSeg :=
  (segs.map fun seg =>
    { phase := seg.phase
      segStart := seg.startLocal
      segEnd := seg.endLocal
      durationMs := max 0 (seg.endLocal - seg.startLocal)
      weight := PHASE_WEIGHTS seg.phase }).filter fun seg => decide (0 < seg.durationMs)

/-- Sum of weighted durations of a segment list. -/
def wsum (l : List WSeg) : ℚ := (l.map fun s => s.durationMs * s.weight).sum

/-- Model of totalWeightedMs of TwilightPhaseBar.tsx (a reduce over the
weighted segments). -/
def totalWeightedMs (ws : List WSeg) : ℚ :=
  ws.foldl (fun sum seg => sum + seg.durationMs * seg.weight) 0

/-- Model of the accumulator loop inside posForTime of TwilightPhaseBar.tsx:
return at the first segment containing t the accumulated weighted duration
plus the partial weighted duration, divided by the total; otherwise keep
accumulating; 0 if no segment contains t. -/
def posLoop (t total : ℚ) : ℚ → List WSeg → ℚ
  | _, [] => 0
  | acc, seg :: rest =>
    if seg.segStart ≤ t ∧ t ≤ seg.segEnd then
      let segSpan := if seg.segEnd - seg.segStart = 0 then 1 else seg.segEnd - seg.segStart
      (acc + (t - seg.segStart) / segSpan * (seg.durationMs * seg.weight)) / total
    else posLoop t total (acc + seg.durationMs * seg.weight) rest

/-- End instant of the final segment of a list (0 for the empty list). -/
def lastEndOf : List WSeg → ℚ
  | [] => 0
  | [seg] => seg.segEnd
  | _ :: rest => lastEndOf rest

/-- Body of posForTime of TwilightPhaseBar.tsx over the weighted segment list
and its total: return 0 when the total is zero or t is at or before the first
start, 1 when t is at or after the last end, otherwise run the accumulator
loop. -/
def posForTimeWS (ws : List WSeg) (total t : ℚ) : ℚ :=
  if total = 0 then 0
  else
    match ws with
    | [] => 0
    | first :: _ =>
      if t ≤ first.segStart then 0
      else if lastEndOf ws ≤ t then 1
      else posLoop t total 0 ws

/-- Model of posForTime of TwilightPhaseBar.tsx for a non-null time t. -/
def posForTime (segs : List TwiSegment) (t : ℚ) : ℚ :=
  posForTimeWS (weightedSegments segs) (totalWeightedMs (weightedSegments segs)) t

/-- The twilight segment sequence of the worked example in the specification,
in minutes: dark until 05:00, civil until 06:00, day until 18:00, civil until
19:00, dark until 24:00. -/
def exTwiSegs : List TwiSegment :=
  [⟨"dark", 0, 300⟩, ⟨"civil", 300, 360⟩, ⟨"day", 360, 1080⟩,
   ⟨"civil", 1080, 1140⟩, ⟨"dark", 1140, 1440⟩]

/-- The five weighted segments produced from exTwiSegs. -/
def exW1 : WSeg := ⟨"dark", 0, 300, 300, 0.45⟩

def exW2 : WSeg := ⟨"civil", 300, 360, 60, 1.25⟩

def exW3 : WSeg := ⟨"day", 360, 1080, 720, 0.55⟩

def exW4 : WSeg := ⟨"civil", 1080, 1140, 60, 1.25⟩

def exW5 : WSeg := ⟨"dark", 1140, 1440, 300, 0.45⟩

/-- Contiguity of two consecutive weighted segments: the first ends where the
second starts. -/
def adjSeg (a b : WSeg) : Prop := a.segEnd = b.segStart

instance : DecidablePred fun p : WSeg × WSeg => adjSeg p.1 p.2 := by
  intro p
  unfold adjSeg
  infer_instance

instance (a b : WSeg) : Decidable (adjSeg a b) := by
  unfold adjSeg
  infer_instance

/-- Character-list representation of a JavaScript string. -/
abbrev Str := List Char

/-- Decimal digit characters of a natural number, most significant first,
modelling the ECMAScript number-to-string conversion for integers. -/
def natChars (n : Nat) : Str :=
  if n < 10 then [Nat.digitChar n] else natChars (n / 10) ++ [Nat.digitChar (n % 10)]
termination_by n
decreasing_by exact Nat.div_lt_self (by omega) (by omega)

/-- Decimal string of an integer (a leading minus sign for negatives). -/
def intChars (n : Int) : Str :=
  if n < 0 then '-' :: natChars n.natAbs else natChars n.toNat

/-- Model of String(n).padStart(2, "0") on an integer. -/
def pad2 (n : Int) : Str :=
  let s := intChars n
  if s.length < 2 then List.replicate (2 - s.length) '0' ++ s else s

/-- Characters matched by an unflagged JavaScript regular-expression dot:
everything except the four line terminators. -/
def isDotChar (c : Char) : Bool :=
  !(c == '\n' || c == '\r' || c.toNat == 8232 || c.toNat == 8233)

/-- Model of matching an ISO-like string against the regular expression
caret (digit 4)-(digit 2)-(digit 2) T (dot plus) dollar of
adjustMoonsetForNight: on success, the 10-character date part and the
nonempty remainder after the T. -/
def isoMatch (s : Str) : Option (Str × Str) :=
  match s with
  | y1 :: y2 :: y3 :: y4 :: h1 :: mo1 :: mo2 :: h2 :: d1 :: d2 :: t :: rest =>
    if y1.isDigit ∧ y2.isDigit ∧ y3.isDigit ∧ y4.isDigit ∧ h1 = '-' ∧
        mo1.isDigit ∧ mo2.isDigit ∧ h2 = '-' ∧ d1.isDigit ∧ d2.isDigit ∧
        t = 'T' ∧ rest ≠ [] ∧ rest.all isDotChar then
      some ([y1, y2, y3, y4, h1, mo1, mo2, h2, d1, d2], rest)
    else none
  | _ => none

/-- Numeric value of a digit string, as the ECMAScript Number conversion
yields on an all-digit string. -/
def digitsVal (l : Str) : Int :=
  l.foldl (fun a c => 10 * a + ((c.toNat : Int) - 48)) 0

/-- Model of the date-part bump of adjustMoonsetForNight: parse the fixed
slices of the 10-character date part, build Date.UTC of that date, advance
one day, and reformat as year-month-day with two-digit padding of month and
day only. -/
def nextDatePart (datePart : Str) : Str :=
  let y := digitsVal (datePart.take 4)
  let m := digitsVal ((datePart.drop 5).take 2)
  let d := digitsVal ((datePart.drop 8).take 2)
  let c := civilFromDays (jsEpochDays y m d + 1)
  intChars c.1 ++ '-' :: (pad2 c.2.1 ++ '-' :: pad2 c.2.2)

/-- Strict code-point lexicographic comparison of two strings, modelling the
JavaScript less-than operator on strings. -/
def jsStrLt : Str → Str → Bool
  | [], [] => false
  | [], _ :: _ => true
  | _ :: _, [] => false
  | a :: as, b :: bs => if a < b then true else if b < a then false else jsStrLt as bs

/-- Non-strict string comparison: a is at most b when b is not below a. -/
def jsStrLe (a b : Str) : Bool := !jsStrLt b a

/-- Event-set record of app/providers/pyMoon.ts. -/
structure MoonEvents where
  rise : Option Str
  set : Option Str
  high_moon : Option Str
  low_moon : Option Str
  phase_name : Option String
deriving DecidableEq

/-- Model of adjustMoonsetForNight of app/providers/pyMoon.ts: when rise and
set are both present, both match the ISO pattern, share the same date part
and set is at most rise as a string, bump the date part of set by one
calendar day keeping the time-of-day and offset text; otherwise return the
events unchanged. -/
def adjustMoonsetForNight (events : MoonEvents) : MoonEvents :=
  match events.rise, events.set with
  | some rise, some set =>
    match isoMatch rise, isoMatch set with
    | some (riseDatePart, _), some (setDatePart, setRest) =>
      if riseDatePart = setDatePart ∧ jsStrLe set rise then
        { events with set := some (nextDatePart setDatePart ++ 'T' :: setRest) }
      else events
    | _, _ => events
  | _, _ => events

/-- Day number of the date slices of a 10-character date part, through the
Date.UTC model. -/
def datePartDays (D : Str) : Int :=
  jsEpochDays (digitsVal (D.take 4)) (digitsVal ((D.drop 5).take 2))
    (digitsVal ((D.drop 8).take 2))

/-- Epoch seconds of an ISO string with an explicit Z offset, restricted to
the shape used in the counterexample for claim C3: models the Date.parse
reading that defines the Instant of an event. -/
def utcInstantSec (s : Str) : Option Int :=
  match isoMatch s with
  | some (D, rest) =>
    match rest with
    | [h1, h2, ':', m1, m2, ':', s1, s2, 'Z'] =>
      if h1.isDigit ∧ h2.isDigit ∧ m1.isDigit ∧ m2.isDigit ∧ s1.isDigit ∧ s2.isDigit then
        some (86400 * datePartDays D +
          3600 * (10 * ((h1.toNat : Int) - 48) + ((h2.toNat : Int) - 48)) +
          60 * (10 * ((m1.toNat : Int) - 48) + ((m2.toNat : Int) - 48)) +
          (10 * ((s1.toNat : Int) - 48) + ((s2.toNat : Int) - 48)))
      else none
    | _ => none
  | none => none

/-- Counterexample events for claim C3: the set instant precedes the rise
instant but the two timestamps carry different calendar-date strings. -/
def cexRise : Str := "2025-01-02T01:00:00Z".data

/-- Set timestamp of the counterexample events for claim C3. -/
def cexSet : Str := "2025-01-01T23:00:00Z".data

/-- The counterexample event set for claim C3. -/
def cexEvents : MoonEvents :=
  { rise := some cexRise, set := some cexSet,
    high_moon := none, low_moon := none, phase_name := none }

/-- Witness events for the amended claim C3: rise and set on the same
calendar date with set lexicographically at most rise. -/
def witRise : Str := "2025-12-06T18:32:00Z".data

/-- Set timestamp of the witness events for the amended claim C3. -/
def witSet : Str := "2025-12-06T09:08:00Z".data

/-- The witness event set for the amended claim C3. -/
def witEvents : MoonEvents :=
  { rise := some witRise, set := some witSet,
    high_moon := none, low_moon := none, phase_name := none }

/-- Witness events for the untouched direction of claim C3: the set is
lexicographically after the rise. -/
def witRise2 : Str := "2025-12-06T09:08:00Z".data

/-- Set timestamp for the untouched-direction witness of claim C3. -/
def witSet2 : Str := "2025-12-06T18:32:00Z".data

/-- The untouched-direction witness event set for claim C3. -/
def witEvents2 : MoonEvents :=
  { rise := some witRise2, set := some witSet2,
    high_moon := none, low_moon := none, phase_name := none }


/-- Model of a provider ISO timestamp string: either a string that parses to a
finite epoch instant (rationals model JS millisecond values), or a string that
does not (the payload keeps the raw characters so JS truthiness is visible). -/
inductive IsoVal where
  | good (t : ℚ)
  | bad (s : Str)
deriving DecidableEq

/-- Model of parseIso from the hook module: undefined and falsy or unparsable
strings give null, otherwise the finite epoch instant. -/
def parseIso (iso : Option IsoVal) : Option ℚ :=
  match iso with
  | some (IsoVal.good t) => some t
  | _ => none

/-- JS truthiness of a string-or-undefined value: undefined and the empty
string are falsy. -/
def isTruthy : Option IsoVal → Bool
  | none => false
  | some (IsoVal.good _) => true
  | some (IsoVal.bad s) => !s.isEmpty

/-- Model of isPast: the instant parses and is at or before now. -/
def isPast (iso : Option IsoVal) (now : ℚ) : Bool :=
  match parseIso iso with
  | some t => decide (t ≤ now)
  | none => false

/-- One loop step of pickLatestBeforeIso: state is (bestT, bestIso), with
bestT = none standing for -Infinity. -/
def pickStepBefore (now : ℚ) (acc : Option ℚ × Option IsoVal)
    (iso : Option IsoVal) : Option ℚ × Option IsoVal :=
  match parseIso iso with
  | none => acc
  | some t =>
    match acc.1 with
    | none => if t ≤ now then (some t, iso) else acc
    | some b => if t ≤ now ∧ b < t then (some t, iso) else acc

/-- Model of pickLatestBeforeIso: latest candidate at or before now. -/
def pickLatestBeforeIso (candidates : List (Option IsoVal)) (now : ℚ) :
    Option IsoVal :=
  (candidates.foldl (pickStepBefore now) (none, none)).2

/-- One loop step of pickEarliestAfterIso: bestT = none stands for Infinity. -/
def pickStepAfter (now : ℚ) (acc : Option ℚ × Option IsoVal)
    (iso : Option IsoVal) : Option ℚ × Option IsoVal :=
  match parseIso iso with
  | none => acc
  | some t =>
    match acc.1 with
    | none => if now ≤ t then (some t, iso) else acc
    | some b => if now ≤ t ∧ t < b then (some t, iso) else acc

/-- Model of pickEarliestAfterIso: earliest candidate at or after now. -/
def pickEarliestAfterIso (candidates : List (Option IsoVal)) (now : ℚ) :
    Option IsoVal :=
  (candidates.foldl (pickStepAfter now) (none, none)).2

/-- Candidate qualifies for the latest-before search: parses and is at or
before now. -/
def qualBefore (now : ℚ) (iso : Option IsoVal) : Bool :=
  match parseIso iso with
  | some t => decide (t ≤ now)
  | none => false

/-- Candidate qualifies for the earliest-after search. -/
def qualAfter (now : ℚ) (iso : Option IsoVal) : Bool :=
  match parseIso iso with
  | some t => decide (now ≤ t)
  | none => false

/-- Some candidate in the list qualifies for the latest-before search. -/
def hasQualBefore (candidates : List (Option IsoVal)) (now : ℚ) : Bool :=
  candidates.any (qualBefore now)

/-- Some candidate in the list qualifies for the earliest-after search. -/
def hasQualAfter (candidates : List (Option IsoVal)) (now : ℚ) : Bool :=
  candidates.any (qualAfter now)

/-- The value v is a candidate whose instant is at or before now and is
maximal among all such candidate instants. -/
def IsMaxBefore (candidates : List (Option IsoVal)) (now : ℚ)
    (v : Option IsoVal) : Prop :=
  v ∈ candidates ∧ ∃ t, parseIso v = some t ∧ t ≤ now ∧
    ∀ u ∈ candidates, ∀ s, parseIso u = some s → s ≤ now → s ≤ t

/-- The value v is a candidate whose instant is at or after now and is
minimal among all such candidate instants. -/
def IsMinAfter (candidates : List (Option IsoVal)) (now : ℚ)
    (v : Option IsoVal) : Prop :=
  v ∈ candidates ∧ ∃ t, parseIso v = some t ∧ now ≤ t ∧
    ∀ u ∈ candidates, ∀ s, parseIso u = some s → now ≤ s → t ≤ s

/-- Model of candidates.find((v) => !!v), flattened to string-or-undefined. -/
def joinFind (candidates : List (Option IsoVal)) : Option IsoVal :=
  match candidates.find? isTruthy with
  | some v => v
  | none => none

/-- Model of approximateHighMoon: midpoint of the rise-to-set interval when
both parse, else undefined (formatting of the midpoint is abstracted to the
instant itself). -/
def approximateHighMoon (riseISO setISO : Option IsoVal) : Option IsoVal :=
  if !isTruthy riseISO || !isTruthy setISO then none
  else
    match parseIso riseISO, parseIso setISO with
    | some riseT, some setT => some (IsoVal.good (riseT + (setT - riseT) / 2))
    | _, _ => none

/-- Event payload returned by a provider for one local date: rise, set,
highMoon, lowMoon timestamps, an optional phase name, and (external source
only) an optional phase angle in degrees. -/
structure Ev where
  rise : Option IsoVal
  set : Option IsoVal
  highMoon : Option IsoVal
  lowMoon : Option IsoVal
  phaseName : Option String
  phase : Option ℚ
deriving DecidableEq

/-- One reconciled source view in the result of useMoonToday. -/
structure SourceView where
  rise : Option IsoVal
  set : Option IsoVal
  highMoon : Option IsoVal
  lowMoon : Option IsoVal
  phaseName : Option String
  prevRise : Option IsoVal
  prevSet : Option IsoVal
deriving DecidableEq

/-- Result of a useMoonToday evaluation: internal and external views. -/
structure MoonTodayResult where
  internal : SourceView
  external : SourceView
deriving DecidableEq

/-- The two event providers, as functions from the local-date key to a
fallible response (error models a thrown fetch). -/
structure Providers where
  py : String → Except Unit Ev
  ext : String → Except Unit Ev

/-- Evaluation context: the supplied now instant, the SunCalc altitude at
now, and the four local-date keys derived from now and the timezone. -/
structure Ctx where
  now : ℚ
  altDeg : ℚ
  today : String
  yesterday : String
  tomorrow : String
  dayAfterTomorrow : String

/-- Model of the useMoonToday query function. Primary fetches (today, then
active and previous dates) are awaited without a catch, so any failure fails
the evaluation; the lazy next-day fetches are wrapped in try/catch and their
failures are ignored. -/
def useMoonToday (ctx : Ctx) (prov : Providers) :
    Except Unit MoonTodayResult :=
  match prov.py ctx.today, prov.ext ctx.today with
  | Except.ok pyToday, Except.ok extToday =>
    let setForSwitch := extToday.set <|> pyToday.set
    let moonsetPassed := isPast setForSwitch ctx.now
    let moonIsUp := decide (0 < ctx.altDeg)
    let activeDate := if moonsetPassed && !moonIsUp then ctx.tomorrow
      else ctx.today
    let previousDate := if activeDate = ctx.today then ctx.yesterday
      else ctx.today
    match (if activeDate = ctx.today then Except.ok pyToday
            else prov.py activeDate),
          (if previousDate = ctx.today then Except.ok pyToday
            else prov.py previousDate),
          (if activeDate = ctx.today then Except.ok extToday
            else prov.ext activeDate),
          (if previousDate = ctx.today then Except.ok extToday
            else prov.ext previousDate) with
    | Except.ok pyActive, Except.ok pyPrev,
      Except.ok extActive, Except.ok extPrev =>
      let nextLocal := if activeDate = ctx.today then ctx.tomorrow
        else ctx.dayAfterTomorrow
      if moonIsUp then
        let internalRise := pickLatestBeforeIso [pyActive.rise, pyPrev.rise]
            ctx.now <|> pyActive.rise <|> pyPrev.rise
        let externalRise := pickLatestBeforeIso [extActive.rise, extPrev.rise]
            ctx.now <|> extActive.rise <|> extPrev.rise
        let internalSetCandidates := [pyActive.set] ++
          (if !isTruthy pyActive.set || isPast pyActive.set ctx.now then
            match (prov.py nextLocal).toOption with
            | some pyNext => [pyNext.set]
            | none => []
          else [])
        let externalSetCandidates := [extActive.set] ++
          (if !isTruthy extActive.set || isPast extActive.set ctx.now then
            match (prov.ext nextLocal).toOption with
            | some extNext => [extNext.set]
            | none => []
          else [])
        let internalSet := pickEarliestAfterIso internalSetCandidates ctx.now
          <|> pyActive.set <|> joinFind internalSetCandidates
        let externalSet := pickEarliestAfterIso externalSetCandidates ctx.now
          <|> extActive.set <|> joinFind externalSetCandidates
        Except.ok
          { internal :=
              { rise := internalRise, set := internalSet,
                highMoon := pyActive.highMoon <|>
                  approximateHighMoon pyActive.rise pyActive.set,
                lowMoon := pyActive.lowMoon,
                phaseName := pyActive.phaseName,
                prevRise := pyPrev.rise, prevSet := pyPrev.set },
            external :=
              { rise := externalRise, set := externalSet,
                highMoon := extActive.highMoon <|>
                  approximateHighMoon extActive.rise extActive.set,
                lowMoon := extActive.lowMoon,
                phaseName := extActive.phaseName <|>
                  phaseNameFromDeg (some (extActive.phase.getD 0)),
                prevRise := extPrev.rise, prevSet := extPrev.set } }
      else
        let internalRiseCandidates := [pyActive.rise] ++
          (if !isTruthy pyActive.rise || isPast pyActive.rise ctx.now then
            match (prov.py nextLocal).toOption with
            | some pyNext => [pyNext.rise]
            | none => []
          else [])
        let externalRiseCandidates := [extActive.rise] ++
          (if !isTruthy extActive.rise || isPast extActive.rise ctx.now then
            match (prov.ext nextLocal).toOption with
            | some extNext => [extNext.rise]
            | none => []
          else [])
        let internalRise := pickEarliestAfterIso internalRiseCandidates
          ctx.now <|> pyActive.rise <|> joinFind internalRiseCandidates
        let externalRise := pickEarliestAfterIso externalRiseCandidates
          ctx.now <|> extActive.rise <|> joinFind externalRiseCandidates
        let internalSet := pickLatestBeforeIso [pyPrev.set, pyActive.set]
          ctx.now <|> pyPrev.set <|> pyActive.set
        let externalSet := pickLatestBeforeIso [extPrev.set, extActive.set]
          ctx.now <|> extPrev.set <|> extActive.set
        Except.ok
          { internal :=
              { rise := internalRise, set := internalSet,
                highMoon := pyActive.highMoon <|>
                  approximateHighMoon pyActive.rise pyActive.set,
                lowMoon := pyActive.lowMoon,
                phaseName := pyActive.phaseName,
                prevRise := pyPrev.rise, prevSet := pyPrev.set },
            external :=
              { rise := externalRise, set := externalSet,
                highMoon := extActive.highMoon <|>
                  approximateHighMoon extActive.rise extActive.set,
                lowMoon := extActive.lowMoon,
                phaseName := extActive.phaseName <|>
                  phaseNameFromDeg (some (extActive.phase.getD 0)),
                prevRise := extPrev.rise, prevSet := extPrev.set } }
    | _, _, _, _ => Except.error ()
  | _, _ => Except.error ()


/-- Loop invariant of the pickLatestBeforeIso fold: either nothing qualifying
has been seen, or the state holds a qualifying candidate with the maximal
instant among the processed ones. -/
def InvB (now : ℚ) (processed : List (Option IsoVal))
    (acc : Option ℚ × Option IsoVal) : Prop :=
  (acc = (none, none) ∧ ∀ u ∈ processed, qualBefore now u = false) ∨
  (∃ b, acc.1 = some b ∧ acc.2 ∈ processed ∧ parseIso acc.2 = some b ∧
    b ≤ now ∧ ∀ u ∈ processed, ∀ s, parseIso u = some s → s ≤ now → s ≤ b)

/-- Loop invariant of the pickEarliestAfterIso fold. -/
def InvA (now : ℚ) (processed : List (Option IsoVal))
    (acc : Option ℚ × Option IsoVal) : Prop :=
  (acc = (none, none) ∧ ∀ u ∈ processed, qualAfter now u = false) ∨
  (∃ b, acc.1 = some b ∧ acc.2 ∈ processed ∧ parseIso acc.2 = some b ∧
    now ≤ b ∧ ∀ u ∈ processed, ∀ s, parseIso u = some s → now ≤ s → b ≤ s)


/-- Candidate list on the searched-forward side of the reconciler: the
active-day value, extended with the next day's value only when the active
value is absent (falsy) or already past, and the next-day fetch succeeded. -/
def nextDayExtended (v : Option IsoVal) (nextFetch : Except Unit Ev)
    (proj : Ev → Option IsoVal) (now : ℚ) : List (Option IsoVal) :=
  [v] ++ (if !isTruthy v || isPast v now then
    match nextFetch.toOption with
    | some nxt => [proj nxt]
    | none => []
  else [])

/-- Synthetic provider event of the C1 example: rise 08:00, set 20:00
(epoch values in minutes), with explicit highMoon and phase name. -/
def c1Ev : Ev :=
  { rise := some (IsoVal.good 480), set := some (IsoVal.good 1200),
    highMoon := some (IsoVal.good 840), lowMoon := none,
    phaseName := some "Full Moon", phase := some 180 }

/-- Evaluation context of the C1 example: now 12:00, moon above horizon. -/
def c1Ctx : Ctx :=
  { now := 720, altDeg := 1, today := "t", yesterday := "y",
    tomorrow := "m", dayAfterTomorrow := "a" }

/-- Providers of the C1 example: both return the same events every day. -/
def c1Prov : Providers :=
  { py := fun _ => Except.ok c1Ev, ext := fun _ => Except.ok c1Ev }


/-- Today's events in the C9 scenario: the rise is still in the future at
now, so no rise candidate is at or before now. -/
def c9Ev : Ev :=
  { rise := some (IsoVal.good 1380), set := some (IsoVal.good 1200),
    highMoon := some (IsoVal.good 840), lowMoon := none,
    phaseName := some "Full Moon", phase := some 180 }

/-- Yesterday's events in the C9 scenario: all values absent. -/
def c9EvY : Ev :=
  { rise := none, set := none, highMoon := none, lowMoon := none,
    phaseName := none, phase := none }

/-- Context of the C9 scenario: moon above the horizon at noon. -/
def c9Ctx : Ctx :=
  { now := 720, altDeg := 1, today := "t", yesterday := "y",
    tomorrow := "m", dayAfterTomorrow := "a" }

/-- Providers of the C9 scenario. -/
def c9Prov : Providers :=
  { py := fun k => if k = "y" then Except.ok c9EvY else Except.ok c9Ev,
    ext := fun k => if k = "y" then Except.ok c9EvY else Except.ok c9Ev }


/-- Today's events in the C2 counterexample: a late rise at 23:00 still in
the future at now, and a set at 20:00 already past. -/
def c2EvT : Ev :=
  { rise := some (IsoVal.good 1380), set := some (IsoVal.good 1200),
    highMoon := some (IsoVal.good 60), lowMoon := none,
    phaseName := some "Full Moon", phase := some 180 }

/-- Tomorrow's events in the C2 counterexample. -/
def c2EvM : Ev :=
  { rise := some (IsoVal.good 1920), set := some (IsoVal.good 2640),
    highMoon := some (IsoVal.good 2280), lowMoon := none,
    phaseName := some "Full Moon", phase := some 180 }

/-- Yesterday's events in the C2 counterexample. -/
def c2EvY : Ev :=
  { rise := none, set := none, highMoon := none, lowMoon := none,
    phaseName := none, phase := none }

/-- Context of the C2 counterexample: 22:00, moon below the horizon, with
today's moonset already passed so the reconciler rolls over to tomorrow. -/
def c2Ctx : Ctx :=
  { now := 1320, altDeg := -5, today := "t", yesterday := "y",
    tomorrow := "m", dayAfterTomorrow := "a" }

/-- Providers of the C2 counterexample. -/
def c2Prov : Providers :=
  { py := fun k => if k = "m" then Except.ok c2EvM
      else if k = "y" then Except.ok c2EvY else Except.ok c2EvT,
    ext := fun k => if k = "m" then Except.ok c2EvM
      else if k = "y" then Except.ok c2EvY else Except.ok c2EvT }

/-- Today's events in the C2 witness scenario: rise 08:00 and set 20:00,
both still ahead at now. -/
def c2wEvT : Ev :=
  { rise := some (IsoVal.good 480), set := some (IsoVal.good 1200),
    highMoon := some (IsoVal.good 840), lowMoon := none,
    phaseName := some "Full Moon", phase := some 180 }

/-- Yesterday's events in the C2 witness scenario. -/
def c2wEvY : Ev :=
  { rise := some (IsoVal.good (-960)), set := some (IsoVal.good (-240)),
    highMoon := some (IsoVal.good (-600)), lowMoon := none,
    phaseName := some "Full Moon", phase := some 180 }

/-- Context of the C2 witness scenario: 05:00, moon below the horizon and
today's moonset not yet passed. -/
def c2wCtx : Ctx :=
  { now := 300, altDeg := -5, today := "t", yesterday := "y",
    tomorrow := "m", dayAfterTomorrow := "a" }

/-- Providers of the C2 witness scenario. -/
def c2wProv : Providers :=
  { py := fun k => if k = "y" then Except.ok c2wEvY else Except.ok c2wEvT,
    ext := fun k => if k = "y" then Except.ok c2wEvY else Except.ok c2wEvT }


/-- Provider event used in the C7 scenarios. -/
def c7Ev : Ev :=
  { rise := some (IsoVal.good 480), set := some (IsoVal.good 1200),
    highMoon := some (IsoVal.good 840), lowMoon := none,
    phaseName := some "Full Moon", phase := some 180 }

/-- Context of the C7 scenarios. -/
def c7Ctx : Ctx :=
  { now := 720, altDeg := 1, today := "t", yesterday := "y",
    tomorrow := "m", dayAfterTomorrow := "a" }

/-- Providers of the C7 counterexample: the internal service succeeds on
every date, the external provider always throws. -/
def c7Prov : Providers :=
  { py := fun _ => Except.ok c7Ev, ext := fun _ => Except.error () }

/-- Providers of the C7 witness: both succeed on every date. -/
def c7wProv : Providers :=
  { py := fun _ => Except.ok c7Ev, ext := fun _ => Except.ok c7Ev }


/-- Provider event used in the C8 scenario. -/
def c8Ev : Ev :=
  { rise := some (IsoVal.good 480), set := some (IsoVal.good 1200),
    highMoon := some (IsoVal.good 840), lowMoon := none,
    phaseName := some "Full Moon", phase := some 180 }

/-- Context of the C8 scenario. -/
def c8Ctx : Ctx :=
  { now := 720, altDeg := 1, today := "t", yesterday := "y",
    tomorrow := "m", dayAfterTomorrow := "a" }

/-- First provider pair of the C8 witness. -/
def c8P1 : Providers :=
  { py := fun _ => Except.ok c8Ev, ext := fun _ => Except.ok c8Ev }

/-- Second provider pair of the C8 witness: a different function that agrees
with the first on the four queried date keys. -/
def c8P2 : Providers :=
  { py := fun k => if k = "z" then Except.error () else Except.ok c8Ev,
    ext := fun k => if k = "z" then Except.error () else Except.ok c8Ev }


/-- Internal today events in the rolled-over C9 witness: set absent. -/
def c9rEvT : Ev :=
  { rise := some (IsoVal.good 420), set := none,
    highMoon := some (IsoVal.good 900), lowMoon := none,
    phaseName := some "Full Moon", phase := some 180 }

/-- External today events in the rolled-over C9 witness: its 20:00 set has
already passed at now, which triggers the rollover. -/
def c9rEvTx : Ev :=
  { rise := some (IsoVal.good 420), set := some (IsoVal.good 1200),
    highMoon := some (IsoVal.good 900), lowMoon := none,
    phaseName := some "Full Moon", phase := some 180 }

/-- Tomorrow events in the rolled-over C9 witness. -/
def c9rEvM : Ev :=
  { rise := some (IsoVal.good 1920), set := some (IsoVal.good 2640),
    highMoon := some (IsoVal.good 2280), lowMoon := none,
    phaseName := some "Full Moon", phase := some 180 }

/-- Context of the rolled-over C9 witness: 22:00, moon below the horizon. -/
def c9rCtx : Ctx :=
  { now := 1320, altDeg := -5, today := "t", yesterday := "y",
    tomorrow := "m", dayAfterTomorrow := "a" }

/-- Providers of the rolled-over C9 witness. -/
def c9rProv : Providers :=
  { py := fun k => if k = "m" then Except.ok c9rEvM else Except.ok c9rEvT,
    ext := fun k => if k = "m" then Except.ok c9rEvM else Except.ok c9rEvTx }

-- ===================== THEOREMS =====================

theorem jsTrunc_eq_floor_of_nonneg (x : ℚ) (h : 0 ≤ x) : jsTrunc x = ⌊x⌋ := by
  unfold jsTrunc
  rw [Rat.floor_def]
  exact Int.tdiv_eq_ediv (Rat.num_nonneg.mpr h) (by positivity)

theorem jsTrunc_eq_ceil_of_neg (x : ℚ) (h : x < 0) : jsTrunc x = ⌈x⌉ := by
  have hx : jsTrunc x = -jsTrunc (-x) := by
    unfold jsTrunc
    rw [Rat.neg_num, Rat.neg_den, Int.neg_tdiv, neg_neg]
  rw [hx, jsTrunc_eq_floor_of_nonneg (-x) (by linarith), ← Int.ceil_neg, neg_neg]

theorem jsRem_nonneg_bounds (a b : ℚ) (ha : 0 ≤ a) (hb : 0 < b) :
    0 ≤ jsRem a b ∧ jsRem a b < b := by
  unfold jsRem
  have hq : 0 ≤ a / b := div_nonneg ha (le_of_lt hb)
  rw [jsTrunc_eq_floor_of_nonneg _ hq]
  have h1 : (⌊a / b⌋ : ℚ) ≤ a / b := Int.floor_le _
  have h2 : a / b < ⌊a / b⌋ + 1 := Int.lt_floor_add_one _
  constructor
  · have := mul_le_mul_of_nonneg_left h1 (le_of_lt hb)
    rw [mul_div_cancel₀ _ (ne_of_gt hb)] at this
    linarith
  · have := mul_lt_mul_of_pos_left h2 hb
    rw [mul_add, mul_div_cancel₀ _ (ne_of_gt hb), mul_one] at this
    linarith

theorem jsRem_neg_bounds (a b : ℚ) (ha : a < 0) (hb : 0 < b) :
    -b < jsRem a b ∧ jsRem a b ≤ 0 := by
  unfold jsRem
  have hq : a / b < 0 := div_neg_of_neg_of_pos ha hb
  rw [jsTrunc_eq_ceil_of_neg _ hq]
  have h1 : a / b ≤ (⌈a / b⌉ : ℚ) := Int.le_ceil _
  have h2 : (⌈a / b⌉ : ℚ) < a / b + 1 := Int.ceil_lt_add_one _
  constructor
  · have := mul_lt_mul_of_pos_left h2 hb
    rw [mul_add, mul_div_cancel₀ _ (ne_of_gt hb), mul_one] at this
    linarith
  · have := mul_le_mul_of_nonneg_left h1 (le_of_lt hb)
    rw [mul_div_cancel₀ _ (ne_of_gt hb)] at this
    linarith

theorem normalizeDeg_mem_Ico (deg : ℚ) :
    0 ≤ normalizeDeg deg ∧ normalizeDeg deg < 360 := by
  unfold normalizeDeg
  rcases le_or_lt 0 deg with h | h
  · obtain ⟨h1, h2⟩ := jsRem_nonneg_bounds deg 360 h (by norm_num)
    exact jsRem_nonneg_bounds _ 360 (by linarith) (by norm_num)
  · obtain ⟨h1, h2⟩ := jsRem_neg_bounds deg 360 h (by norm_num)
    exact jsRem_nonneg_bounds _ 360 (by linarith) (by norm_num)

/-- C10: for every (finite) rational input, normalizeDeg lands in the interval
from 0 inclusive to 360 exclusive; phaseNameFromDeg at the default tolerance 5
returns one of the eight phase names, never none, with the cardinal names
taking priority within 5 degrees of 0, 90, 180 and 270; none is returned
exactly for a null or undefined input. -/
theorem phaseNameFromDeg_total (q : ℚ) :
    (0 ≤ normalizeDeg q ∧ normalizeDeg q < 360) ∧
    (∃ s ∈ phaseNames, phaseNameFromDeg (some q) = some s) ∧
    ((normalizeDeg q ≤ 5 ∨ 355 ≤ normalizeDeg q) →
      phaseNameFromDeg (some q) = some "New Moon") ∧
    (|normalizeDeg q - 90| ≤ 5 → phaseNameFromDeg (some q) = some "First Quarter") ∧
    (|normalizeDeg q - 180| ≤ 5 → phaseNameFromDeg (some q) = some "Full Moon") ∧
    (|normalizeDeg q - 270| ≤ 5 → phaseNameFromDeg (some q) = some "Last Quarter") ∧
    phaseNameFromDeg none = none := by
  obtain ⟨hlo, hhi⟩ := normalizeDeg_mem_Ico q
  refine ⟨⟨hlo, hhi⟩, ?_, ?_, ?_, ?_, ?_, rfl⟩
  · simp only [phaseNameFromDeg]
    split_ifs with h1 h2 h3 h4 h5 h6 h7 h8
    · exact ⟨"New Moon", by simp [phaseNames], rfl⟩
    · exact ⟨"First Quarter", by simp [phaseNames], rfl⟩
    · exact ⟨"Full Moon", by simp [phaseNames], rfl⟩
    · exact ⟨"Last Quarter", by simp [phaseNames], rfl⟩
    · exact ⟨"Waxing Crescent", by simp [phaseNames], rfl⟩
    · exact ⟨"Waxing Gibbous", by simp [phaseNames], rfl⟩
    · exact ⟨"Waning Gibbous", by simp [phaseNames], rfl⟩
    · exact ⟨"Waning Crescent", by simp [phaseNames], rfl⟩
    · exfalso
      rw [not_or, not_le, not_le] at h1
      obtain ⟨h1a, h1b⟩ := h1
      rw [not_le] at h2 h3 h4
      rw [not_and_or, not_lt, not_lt] at h5 h6 h7 h8
      have h90 : 90 ≤ normalizeDeg q := by rcases h5 with h | h <;> linarith
      have h95 : 95 < normalizeDeg q := by rcases lt_abs.mp h2 with h | h <;> linarith
      have h180 : 180 ≤ normalizeDeg q := by rcases h6 with h | h <;> linarith
      have h185 : 185 < normalizeDeg q := by rcases lt_abs.mp h3 with h | h <;> linarith
      have h270 : 270 ≤ normalizeDeg q := by rcases h7 with h | h <;> linarith
      have h275 : 275 < normalizeDeg q := by rcases lt_abs.mp h4 with h | h <;> linarith
      rcases h8 with h | h <;> linarith
  · intro h
    simp only [phaseNameFromDeg]
    rw [if_pos]
    rcases h with h | h
    · exact Or.inl h
    · exact Or.inr (by linarith)
  · intro h
    obtain ⟨ha, hb⟩ := abs_le.mp h
    simp only [phaseNameFromDeg]
    rw [if_neg (by push_neg; constructor <;> linarith), if_pos h]
  · intro h
    obtain ⟨ha, hb⟩ := abs_le.mp h
    simp only [phaseNameFromDeg]
    rw [if_neg (by push_neg; constructor <;> linarith),
      if_neg (by rw [not_le, lt_abs]; left; linarith), if_pos h]
  · intro h
    obtain ⟨ha, hb⟩ := abs_le.mp h
    simp only [phaseNameFromDeg]
    rw [if_neg (by push_neg; constructor <;> linarith),
      if_neg (by rw [not_le, lt_abs]; left; linarith),
      if_neg (by rw [not_le, lt_abs]; left; linarith), if_pos h]

theorem civilParts_spec (z : Int) :
    0 ≤ (civilParts z).2.1 ∧ (civilParts z).2.1 ≤ 3 ∧
    0 ≤ (civilParts z).2.2.1 ∧ (civilParts z).2.2.1 ≤ 24 ∧
    0 ≤ (civilParts z).2.2.2.1 ∧ (civilParts z).2.2.2.1 ≤ 3 ∧
    0 ≤ (civilParts z).2.2.2.2 ∧ (civilParts z).2.2.2.2 ≤ 365 ∧
    146097 * (civilParts z).1 + 36524 * (civilParts z).2.1 +
      1461 * (civilParts z).2.2.1 + 365 * (civilParts z).2.2.2.1 +
      (civilParts z).2.2.2.2 = z + 719468 := by
  simp only [civilParts]
  omega

theorem daysFromCivil_assemble (era cent quad yiq doy : Int)
    (hc0 : 0 ≤ cent) (hc1 : cent ≤ 3) (hq0 : 0 ≤ quad) (hq1 : quad ≤ 24)
    (hi0 : 0 ≤ yiq) (hi1 : yiq ≤ 3) (hd0 : 0 ≤ doy) (hd1 : doy ≤ 365) :
    daysFromCivil (civilAssemble era cent quad yiq doy).1
      (civilAssemble era cent quad yiq doy).2.1
      (civilAssemble era cent quad yiq doy).2.2 =
    146097 * era + 36524 * cent + 1461 * quad + 365 * yiq + doy - 719468 := by
  simp only [civilAssemble, daysFromCivil]
  omega

theorem days_civil_round (z : Int) :
    daysFromCivil (civilFromDays z).1 (civilFromDays z).2.1 (civilFromDays z).2.2 = z := by
  have h := civilParts_spec z
  simp only [civilFromDays]
  rw [daysFromCivil_assemble _ _ _ _ _ h.1 h.2.1 h.2.2.1 h.2.2.2.1 h.2.2.2.2.1
    h.2.2.2.2.2.1 h.2.2.2.2.2.2.1 h.2.2.2.2.2.2.2.1]
  omega

theorem civil_bounds (z : Int) :
    1 ≤ (civilFromDays z).2.1 ∧ (civilFromDays z).2.1 ≤ 12 ∧
    1 ≤ (civilFromDays z).2.2 ∧ (civilFromDays z).2.2 ≤ 31 := by
  have h := civilParts_spec z
  simp only [civilFromDays, civilAssemble]
  omega

theorem clamp01_nonneg (x : ℚ) : 0 ≤ clamp01 x := le_max_left 0 _

theorem clamp01_le_one (x : ℚ) : clamp01 x ≤ 1 :=
  max_le (by norm_num) (min_le_left 1 x)

theorem clamp01_idem (x : ℚ) : clamp01 (clamp01 x) = clamp01 x := by
  have h1 := clamp01_nonneg x
  have h2 := clamp01_le_one x
  have hdef : ∀ y : ℚ, clamp01 y = max 0 (min 1 y) := fun _ => rfl
  rw [hdef, min_eq_right h2, max_eq_right h1]

theorem clamp_riseSetT (rise setE : Option ℚ) (now : ℚ) :
    clamp01 (riseSetT rise setE now) = clamp01 (specRiseSetFixed rise setE now) := by
  rcases rise with _ | r <;> rcases setE with _ | s <;>
    simp only [riseSetT, specRiseSetFixed]
  by_cases h : 0 < s - r
  · rw [if_pos h, if_pos (by linarith : (0 : ℚ) < s + (s - r) / 2 - (r - (s - r) / 2)),
      if_pos (by linarith : r < s), clamp01_idem]
  · rw [if_neg h, if_neg (fun hc => h (by linarith))]

/-- C5 counterexample: with prior set 0, next rise 100, rise 100, set 200 and
now exactly at the prior set instant, the component computes 3/4 (its gap
branch bounds are inclusive) while the reference of the claim, whose gap
branch requires now to lie strictly between prior set and next rise, computes
0 through the padded rise/set formula. -/
theorem cyclePosition_strict_gap_counterexample :
    cyclePosition (some 100) (some 200) (some 0) (some 100) 0 = 3 / 4 ∧
    specCyclePosition (some 100) (some 200) (some 0) (some 100) 0 = 0 ∧
    (3 / 4 : ℚ) ≠ 0 := by
  refine ⟨?_, ?_, by norm_num⟩
  · show clamp01 (0.75 + (if (0 : ℚ) < 100 - 0 then ((0 : ℚ) - 0) / (100 - 0) else 0) * 0.25) = 3 / 4
    rw [if_pos (by norm_num)]
    unfold clamp01
    norm_num
  · show specRiseSet (some 100) (some 200) 0 = 0
    unfold specRiseSet clamp01
    norm_num

/-- C5 as amended: the cycle position of the component equals the piecewise
reference with inclusive gap bounds (elapsed fraction 0 on a degenerate gap)
and with the padded rise/set formula guarded by rise strictly before set, all
clamped to the unit interval; in particular the value always lies in the unit
interval. -/
theorem cyclePosition_eq_fixed_spec (rise setE prevSet nextRise : Option ℚ) (now : ℚ) :
    cyclePosition rise setE prevSet nextRise now =
      specCyclePositionFixed rise setE prevSet nextRise now ∧
    0 ≤ cyclePosition rise setE prevSet nextRise now ∧
    cyclePosition rise setE prevSet nextRise now ≤ 1 := by
  have hmain : cyclePosition rise setE prevSet nextRise now =
      specCyclePositionFixed rise setE prevSet nextRise now := by
    unfold cyclePosition specCyclePositionFixed
    rcases prevSet with _ | ps <;> rcases nextRise with _ | nr <;> simp only []
    · exact clamp_riseSetT rise setE now
    · exact clamp_riseSetT rise setE now
    · exact clamp_riseSetT rise setE now
    · by_cases hin : ps ≤ now ∧ now ≤ nr
      · rw [if_pos hin, if_pos hin]
        by_cases hspan : 0 < nr - ps
        · rw [if_pos hspan, if_pos (by linarith : ps < nr)]
          congr 1
          ring
        · rw [if_neg hspan, if_neg (fun hc => hspan (by linarith))]
          congr 1
          ring
      · rw [if_neg hin, if_neg hin]
        exact clamp_riseSetT rise setE now
  refine ⟨hmain, ?_, ?_⟩
  · exact clamp01_nonneg _
  · exact clamp01_le_one _

theorem PHASE_WEIGHTS_pos (p : String) : 0 < PHASE_WEIGHTS p := by
  unfold PHASE_WEIGHTS
  split_ifs <;> norm_num

theorem weightedSegments_facts (segs : List TwiSegment) :
    ∀ w ∈ weightedSegments segs,
      0 < w.durationMs ∧ w.durationMs = w.segEnd - w.segStart ∧ 0 < w.weight := by
  intro w hw
  unfold weightedSegments at hw
  rw [List.mem_filter] at hw
  obtain ⟨hmem, hdec⟩ := hw
  have hdur : 0 < w.durationMs := of_decide_eq_true hdec
  rw [List.mem_map] at hmem
  obtain ⟨seg, _, rfl⟩ := hmem
  refine ⟨hdur, ?_, PHASE_WEIGHTS_pos _⟩
  simp only at hdur ⊢
  rcases le_total (seg.endLocal - seg.startLocal) 0 with h | h
  · rw [max_eq_left h] at hdur
    exact absurd hdur (lt_irrefl 0)
  · rw [max_eq_right h]

theorem foldl_add_eq (f : WSeg → ℚ) (l : List WSeg) :
    ∀ a : ℚ, l.foldl (fun sum seg => sum + f seg) a = a + (l.map f).sum := by
  induction l with
  | nil => intro a; simp
  | cons x xs ih =>
    intro a
    simp only [List.foldl_cons, List.map_cons, List.sum_cons, ih]
    ring

theorem totalWeightedMs_eq_wsum (l : List WSeg) : totalWeightedMs l = wsum l := by
  unfold totalWeightedMs wsum
  rw [foldl_add_eq]
  ring

theorem wsum_append (l1 l2 : List WSeg) : wsum (l1 ++ l2) = wsum l1 + wsum l2 := by
  unfold wsum
  rw [List.map_append, List.sum_append]

theorem wsum_nonneg (l : List WSeg)
    (h : ∀ w ∈ l, 0 < w.durationMs ∧ w.durationMs = w.segEnd - w.segStart ∧ 0 < w.weight) :
    0 ≤ wsum l := by
  induction l with
  | nil => simp [wsum]
  | cons x xs ih =>
    have hx := h x (List.mem_cons_self x xs)
    have hxs := ih fun w hw => h w (List.mem_cons_of_mem x hw)
    unfold wsum at *
    simp only [List.map_cons, List.sum_cons]
    nlinarith [hx.1, hx.2.2]

theorem wsum_pos (x : WSeg) (xs : List WSeg)
    (h : ∀ w ∈ x :: xs, 0 < w.durationMs ∧ w.durationMs = w.segEnd - w.segStart ∧ 0 < w.weight) :
    0 < wsum (x :: xs) := by
  have hx := h x (List.mem_cons_self x xs)
  have hxs := wsum_nonneg xs fun w hw => h w (List.mem_cons_of_mem x hw)
  unfold wsum at *
  simp only [List.map_cons, List.sum_cons]
  nlinarith [hx.1, hx.2.2]

theorem chain_ends_le (pre : List WSeg) (seg : WSeg) (post : List WSeg)
    (hchain : List.Chain' adjSeg (pre ++ seg :: post))
    (hfacts : ∀ w ∈ pre, 0 < w.durationMs ∧ w.durationMs = w.segEnd - w.segStart ∧ 0 < w.weight) :
    ∀ w ∈ pre, w.segEnd ≤ seg.segStart := by
  induction pre with
  | nil => intro w hw; exact absurd hw (List.not_mem_nil w)
  | cons x pre' ih =>
    rw [List.cons_append, List.chain'_cons'] at hchain
    obtain ⟨hadj, hchain'⟩ := hchain
    have hrest := ih hchain' fun w hw => hfacts w (List.mem_cons_of_mem x hw)
    intro w hw
    rcases List.mem_cons.mp hw with rfl | hw'
    · cases pre' with
      | nil =>
        have := hadj seg (by simp)
        exact le_of_eq this
      | cons a pre'' =>
        have hxa : adjSeg w a := hadj a (by simp)
        have ha := hfacts a (by simp)
        have haseg : a.segEnd ≤ seg.segStart := hrest a (by simp)
        unfold adjSeg at hxa
        rw [hxa]
        have : a.segStart < a.segEnd := by linarith [ha.1, ha.2.1]
        linarith
    · exact hrest w hw'

theorem lastEnd_ge (l : List WSeg)
    (hchain : List.Chain' adjSeg l)
    (hfacts : ∀ w ∈ l, 0 < w.durationMs ∧ w.durationMs = w.segEnd - w.segStart ∧ 0 < w.weight) :
    ∀ w ∈ l, w.segEnd ≤ lastEndOf l := by
  induction l with
  | nil => intro w hw; exact absurd hw (List.not_mem_nil w)
  | cons x xs ih =>
    intro w hw
    cases xs with
    | nil =>
      rcases List.mem_cons.mp hw with rfl | hw'
      · exact le_of_eq rfl
      · exact absurd hw' (List.not_mem_nil w)
    | cons a rest =>
      rw [List.chain'_cons] at hchain
      obtain ⟨hadj, hchain'⟩ := hchain
      have hrec := ih hchain' fun v hv => hfacts v (List.mem_cons_of_mem x hv)
      have hlast : lastEndOf (x :: a :: rest) = lastEndOf (a :: rest) := rfl
      rcases List.mem_cons.mp hw with rfl | hw'
      · have ha := hfacts a (by simp)
        have haa : a.segEnd ≤ lastEndOf (a :: rest) := hrec a (by simp)
        unfold adjSeg at hadj
        rw [hlast, hadj]
        have : a.segStart < a.segEnd := by linarith [ha.1, ha.2.1]
        linarith
      · rw [hlast]
        exact hrec w hw'

theorem lastEnd_concat (l : List WSeg) (s : WSeg) : lastEndOf (l ++ [s]) = s.segEnd := by
  induction l with
  | nil => rfl
  | cons x xs ih =>
    cases xs with
    | nil => simp [lastEndOf]
    | cons a rest => simpa [lastEndOf] using ih

theorem posLoop_formula (seg : WSeg) (post : List WSeg) (t total : ℚ) :
    ∀ (pre : List WSeg) (acc : ℚ),
    (∀ w ∈ pre, 0 < w.durationMs ∧ w.durationMs = w.segEnd - w.segStart ∧ 0 < w.weight) →
    (∀ w ∈ pre, w.segEnd ≤ seg.segStart) →
    List.Chain' adjSeg (pre ++ seg :: post) →
    0 < seg.durationMs → seg.durationMs = seg.segEnd - seg.segStart →
    seg.segStart ≤ t → t ≤ seg.segEnd →
    posLoop t total acc (pre ++ seg :: post) =
      (acc + wsum pre + (t - seg.segStart) / (seg.segEnd - seg.segStart) *
        (seg.durationMs * seg.weight)) / total := by
  intro pre
  induction pre with
  | nil =>
    intro acc _ _ _ hdur hdeq hts hte
    have hspan : seg.segEnd - seg.segStart ≠ 0 := by
      intro hc
      rw [hdeq] at hdur
      rw [hc] at hdur
      exact lt_irrefl 0 hdur
    simp only [List.nil_append, posLoop, if_pos (And.intro hts hte), if_neg hspan]
    congr 1
    simp [wsum]
  | cons x pre' ih =>
    intro acc hfacts hord hchain hdur hdeq hts hte
    have hxfact := hfacts x (by simp)
    have hxord := hord x (by simp)
    rw [List.cons_append, List.chain'_cons'] at hchain
    obtain ⟨hadj, hchain'⟩ := hchain
    by_cases hx : x.segStart ≤ t ∧ t ≤ x.segEnd
    · have hteq : t = x.segEnd := le_antisymm hx.2 (le_trans hxord hts)
      have hseq : x.segEnd = seg.segStart := le_antisymm hxord (by linarith [hx.2])
      cases pre' with
      | nil =>
        have hspanx : x.segEnd - x.segStart ≠ 0 := by
          intro hc
          have := hxfact.2.1
          rw [this, hc] at hxfact
          exact lt_irrefl 0 hxfact.1
        simp only [List.cons_append, List.nil_append, posLoop,
          if_pos hx, if_neg hspanx]
        congr 1
        have h1 : (t - x.segStart) / (x.segEnd - x.segStart) = 1 := by
          rw [hteq, ← hxfact.2.1]
          rw [hxfact.2.1]
          exact div_self hspanx
        rw [h1]
        have h2 : (t - seg.segStart) / (seg.segEnd - seg.segStart) = 0 := by
          rw [hteq, hseq]
          simp
        rw [h2]
        simp [wsum]
      | cons a pre'' =>
        exfalso
        have hxa : adjSeg x a := hadj a (by simp)
        have hafact := hfacts a (by simp)
        have haord := hord a (by simp)
        unfold adjSeg at hxa
        have hastart : a.segStart < a.segEnd := by linarith [hafact.1, hafact.2.1]
        have : a.segStart = x.segEnd := hxa.symm
        linarith [hseq, haord]
    · have hstep : posLoop t total acc ((x :: pre') ++ seg :: post) =
          posLoop t total (acc + x.durationMs * x.weight) (pre' ++ seg :: post) := by
        simp only [List.cons_append, posLoop, if_neg hx]
        rfl
      rw [hstep, ih (acc + x.durationMs * x.weight)
        (fun w hw => hfacts w (List.mem_cons_of_mem x hw))
        (fun w hw => hord w (List.mem_cons_of_mem x hw))
        hchain' hdur hdeq hts hte]
      congr 1
      have : wsum (x :: pre') = x.durationMs * x.weight + wsum pre' := by
        simp [wsum]
      rw [this]
      ring

theorem posForTimeWS_cons (first : WSeg) (restW : List WSeg) (total t : ℚ)
    (hne : total ≠ 0) :
    posForTimeWS (first :: restW) total t =
      if t ≤ first.segStart then 0
      else if lastEndOf (first :: restW) ≤ t then 1
      else posLoop t total 0 (first :: restW) := by
  unfold posForTimeWS
  rw [if_neg hne]

/-- C6: for a contiguous weighted twilight segment sequence, the bar position
behaves as specified: segments of non-positive duration are dropped (every
kept segment has positive duration); a time at or before the first start maps
to 0 and at or after the last end maps to 1; a time inside a segment maps to
the weighted prefix sum plus the partial weighted duration of its segment,
divided by the total weighted duration; and the position is strictly
increasing in the time within any one segment. -/
theorem posForTime_spec (segs : List TwiSegment) (first : WSeg) (restW : List WSeg)
    (hws : weightedSegments segs = first :: restW)
    (hchain : List.Chain' adjSeg (weightedSegments segs)) :
    (∀ w ∈ weightedSegments segs, 0 < w.durationMs) ∧
    (∀ t, t ≤ first.segStart → posForTime segs t = 0) ∧
    (∀ t, lastEndOf (weightedSegments segs) ≤ t → posForTime segs t = 1) ∧
    (∀ pre seg post t, weightedSegments segs = pre ++ seg :: post →
      seg.segStart ≤ t → t ≤ seg.segEnd →
      posForTime segs t =
        (wsum pre + (t - seg.segStart) / (seg.segEnd - seg.segStart) *
          (seg.durationMs * seg.weight)) / wsum (weightedSegments segs)) ∧
    (∀ pre seg post t1 t2, weightedSegments segs = pre ++ seg :: post →
      seg.segStart ≤ t1 → t1 < t2 → t2 ≤ seg.segEnd →
      posForTime segs t1 < posForTime segs t2) := by
  have hfacts := weightedSegments_facts segs
  have hpos : 0 < wsum (weightedSegments segs) := by
    rw [hws]
    exact wsum_pos first restW (by rw [← hws]; exact hfacts)
  have htot : totalWeightedMs (weightedSegments segs) = wsum (weightedSegments segs) :=
    totalWeightedMs_eq_wsum _
  have htotne : totalWeightedMs (weightedSegments segs) ≠ 0 := by
    rw [htot]
    exact ne_of_gt hpos
  have hfirstmem : first ∈ weightedSegments segs := by
    rw [hws]
    exact List.mem_cons_self first restW
  have hfirst := hfacts first hfirstmem
  have hlastge := lastEnd_ge (weightedSegments segs) hchain hfacts
  have hbody : ∀ t, posForTime segs t =
      if t ≤ first.segStart then 0
      else if lastEndOf (weightedSegments segs) ≤ t then 1
      else posLoop t (totalWeightedMs (weightedSegments segs)) 0 (weightedSegments segs) := by
    intro t
    unfold posForTime
    conv_lhs => rw [hws]
    rw [posForTimeWS_cons first restW _ t (by rw [← hws]; exact htotne), ← hws]
  have hformula : ∀ pre seg post t, weightedSegments segs = pre ++ seg :: post →
      seg.segStart ≤ t → t ≤ seg.segEnd →
      posForTime segs t =
        (wsum pre + (t - seg.segStart) / (seg.segEnd - seg.segStart) *
          (seg.durationMs * seg.weight)) / wsum (weightedSegments segs) := by
    intro pre seg post t hsplit hts hte
    have hsegmem : seg ∈ weightedSegments segs := by
      rw [hsplit]
      exact List.mem_append_right pre (List.mem_cons_self seg post)
    have hseg := hfacts seg hsegmem
    have hspan : 0 < seg.segEnd - seg.segStart := by linarith [hseg.1, hseg.2.1]
    have hpremem : ∀ w ∈ pre, w ∈ weightedSegments segs := by
      intro w hw
      rw [hsplit]
      exact List.mem_append_left _ hw
    have hordpre : ∀ w ∈ pre, w.segEnd ≤ seg.segStart := by
      apply chain_ends_le pre seg post
      · rw [← hsplit]; exact hchain
      · intro w hw; exact hfacts w (hpremem w hw)
    rw [hbody t]
    by_cases hE : t ≤ first.segStart
    · rw [if_pos hE]
      cases pre with
      | nil =>
        have hfs : first = seg := by
          have := hws.symm.trans hsplit
          simp only [List.nil_append] at this
          exact (List.cons.injEq _ _ _ _).mp this |>.1
        have hteq : t = seg.segStart := le_antisymm (hfs ▸ hE) hts
        rw [hteq]
        simp [wsum]
      | cons x pre' =>
        exfalso
        have hfx : first = x := by
          have := hws.symm.trans hsplit
          simp only [List.cons_append] at this
          exact (List.cons.injEq _ _ _ _).mp this |>.1
        have hxfact := hfacts x (hpremem x (List.mem_cons_self x pre'))
        have hxord := hordpre x (List.mem_cons_self x pre')
        have : x.segStart < x.segEnd := by linarith [hxfact.1, hxfact.2.1]
        rw [hfx] at hE
        linarith
    · rw [if_neg hE]
      by_cases hL : lastEndOf (weightedSegments segs) ≤ t
      · rw [if_pos hL]
        cases post with
        | nil =>
          have hlast : lastEndOf (weightedSegments segs) = seg.segEnd := by
            rw [hsplit]
            exact lastEnd_concat pre seg
          have hteq : t = seg.segEnd := le_antisymm hte (hlast ▸ hL)
          have hone : (t - seg.segStart) / (seg.segEnd - seg.segStart) = 1 := by
            rw [hteq]
            exact div_self (ne_of_gt hspan)
          rw [hone]
          have hsum : wsum (weightedSegments segs) =
              wsum pre + seg.durationMs * seg.weight := by
            rw [hsplit, wsum_append]
            simp [wsum]
          rw [hsum]
          rw [one_mul, div_self]
          rw [← hsum]
          exact ne_of_gt hpos
        | cons a post' =>
          exfalso
          have hamem : a ∈ weightedSegments segs := by
            rw [hsplit]
            exact List.mem_append_right pre (by simp)
          have hafact := hfacts a hamem
          have haa : a.segStart < a.segEnd := by linarith [hafact.1, hafact.2.1]
          have hadjsa : adjSeg seg a := by
            have hsplit2 : weightedSegments segs = (pre ++ [seg]) ++ a :: post' := by
              rw [hsplit, List.append_cons pre seg (a :: post')]
            have hc := hchain
            rw [hsplit2, List.chain'_append] at hc
            have hg1 : seg ∈ (pre ++ [seg]).getLast? := by
              simp [List.getLast?_concat]
            have hg2 : a ∈ (a :: post').head? := rfl
            exact hc.2.2 seg hg1 a hg2
          unfold adjSeg at hadjsa
          have hage : a.segEnd ≤ lastEndOf (weightedSegments segs) := hlastge a hamem
          linarith
      · rw [if_neg hL]
        have hsplit' : weightedSegments segs = pre ++ seg :: post := hsplit
        rw [hsplit']
        rw [posLoop_formula seg post t _ pre 0
          (fun w hw => hfacts w (hpremem w hw)) hordpre
          (by rw [← hsplit]; exact hchain) hseg.1 hseg.2.1 hts hte]
        rw [← hsplit', htot, zero_add]
  refine ⟨fun w hw => (hfacts w hw).1, ?_, ?_, hformula, ?_⟩
  · intro t ht
    rw [hbody t, if_pos ht]
  · intro t ht
    have hfe : first.segEnd ≤ lastEndOf (weightedSegments segs) := hlastge first hfirstmem
    have hfs : first.segStart < first.segEnd := by linarith [hfirst.1, hfirst.2.1]
    rw [hbody t, if_neg (by linarith), if_pos ht]
  · intro pre seg post t1 t2 hsplit hts hlt hte
    have hsegmem : seg ∈ weightedSegments segs := by
      rw [hsplit]
      exact List.mem_append_right pre (List.mem_cons_self seg post)
    have hseg := hfacts seg hsegmem
    have hspan : 0 < seg.segEnd - seg.segStart := by linarith [hseg.1, hseg.2.1]
    rw [hformula pre seg post t1 hsplit hts (by linarith),
      hformula pre seg post t2 hsplit (by linarith) hte]
    rw [div_lt_div_iff₀ hpos hpos]
    have hnum : (t1 - seg.segStart) / (seg.segEnd - seg.segStart) *
        (seg.durationMs * seg.weight) <
        (t2 - seg.segStart) / (seg.segEnd - seg.segStart) *
        (seg.durationMs * seg.weight) := by
      have hdiff : (t2 - seg.segStart) / (seg.segEnd - seg.segStart) *
          (seg.durationMs * seg.weight) -
          (t1 - seg.segStart) / (seg.segEnd - seg.segStart) *
          (seg.durationMs * seg.weight) =
          (t2 - t1) / (seg.segEnd - seg.segStart) * (seg.durationMs * seg.weight) := by
        ring
      have hdpos : 0 < (t2 - t1) / (seg.segEnd - seg.segStart) *
          (seg.durationMs * seg.weight) :=
        mul_pos (div_pos (by linarith) hspan) (mul_pos hseg.1 hseg.2.2)
      linarith
    have := mul_lt_mul_of_pos_right (add_lt_add_left hnum (wsum pre)) hpos
    linarith

/-- Witness for C6 at the worked example of the specification: position 0 at
midnight, 1 at end of day, and strict growth inside the morning civil
segment. -/
theorem posForTime_spec_witness :
    posForTime exTwiSegs 0 = 0 ∧ posForTime exTwiSegs 1440 = 1 ∧
    posForTime exTwiSegs 300 < posForTime exTwiSegs 330 ∧
    posForTime exTwiSegs 330 < posForTime exTwiSegs 360 := by
  have hws : weightedSegments exTwiSegs = [exW1, exW2, exW3, exW4, exW5] := by
    norm_num [weightedSegments, exTwiSegs, PHASE_WEIGHTS, List.filter, max_def,
      exW1, exW2, exW3, exW4, exW5]
    exact ⟨rfl, rfl, rfl⟩
  have hchain : List.Chain' adjSeg (weightedSegments exTwiSegs) := by
    rw [hws]
    simp only [List.chain'_cons, List.chain'_singleton, adjSeg,
      exW1, exW2, exW3, exW4, exW5, and_true]
  have h := posForTime_spec exTwiSegs exW1 [exW2, exW3, exW4, exW5] hws hchain
  exact ⟨h.2.1 0 (by decide), h.2.2.1 1440 (by rw [hws]; decide),
    h.2.2.2.2 [exW1] exW2 [exW3, exW4, exW5] 300 330 (by rw [hws]; rfl) (by decide)
      (by decide) (by decide),
    h.2.2.2.2 [exW1] exW2 [exW3, exW4, exW5] 330 360 (by rw [hws]; rfl) (by decide)
      (by decide) (by decide)⟩

theorem natChars_base (n : Nat) (h : n < 10) : natChars n = [Nat.digitChar n] := by
  unfold natChars
  exact if_pos h

theorem natChars_step (n : Nat) (h : ¬n < 10) :
    natChars n = natChars (n / 10) ++ [Nat.digitChar (n % 10)] := by
  conv_lhs => unfold natChars
  exact if_neg h

theorem natChars2 (n : Nat) (h1 : 10 ≤ n) (h2 : n ≤ 99) :
    natChars n = [Nat.digitChar (n / 10), Nat.digitChar (n % 10)] := by
  rw [natChars_step n (by omega), natChars_base (n / 10) (by omega)]
  rfl

theorem natChars3 (n : Nat) (h1 : 100 ≤ n) (h2 : n ≤ 999) :
    natChars n =
      [Nat.digitChar (n / 100), Nat.digitChar (n / 10 % 10), Nat.digitChar (n % 10)] := by
  rw [natChars_step n (by omega), natChars2 (n / 10) (by omega) (by omega)]
  rw [Nat.div_div_eq_div_mul]
  rfl

theorem natChars4 (n : Nat) (h1 : 1000 ≤ n) (h2 : n ≤ 9999) :
    natChars n = [Nat.digitChar (n / 1000), Nat.digitChar (n / 100 % 10),
      Nat.digitChar (n / 10 % 10), Nat.digitChar (n % 10)] := by
  rw [natChars_step n (by omega), natChars3 (n / 10) (by omega) (by omega)]
  rw [Nat.div_div_eq_div_mul, Nat.div_div_eq_div_mul]
  rfl

theorem digitChar_isDigit (k : Nat) (h : k ≤ 9) : (Nat.digitChar k).isDigit = true := by
  interval_cases k <;> decide

theorem digitChar_toNat (k : Nat) (h : k ≤ 9) : (Nat.digitChar k).toNat = 48 + k := by
  interval_cases k <;> decide

theorem digitsVal_two (b1 b2 : Char) :
    digitsVal [b1, b2] = 10 * ((b1.toNat : Int) - 48) + ((b2.toNat : Int) - 48) := by
  unfold digitsVal
  simp only [List.foldl_cons, List.foldl_nil]
  ring

theorem digitsVal_four (a1 a2 a3 a4 : Char) :
    digitsVal [a1, a2, a3, a4] =
      1000 * ((a1.toNat : Int) - 48) + 100 * ((a2.toNat : Int) - 48) +
      10 * ((a3.toNat : Int) - 48) + ((a4.toNat : Int) - 48) := by
  unfold digitsVal
  simp only [List.foldl_cons, List.foldl_nil]
  ring

theorem digitsVal_natChars4 (n : Nat) (h1 : 1000 ≤ n) (h2 : n ≤ 9999) :
    digitsVal (natChars n) = (n : Int) := by
  rw [natChars4 n h1 h2, digitsVal_four,
    digitChar_toNat (n / 1000) (by omega), digitChar_toNat (n / 100 % 10) (by omega),
    digitChar_toNat (n / 10 % 10) (by omega), digitChar_toNat (n % 10) (by omega)]
  push_cast
  omega

theorem intChars_natChars (n : Int) (h : 0 ≤ n) : intChars n = natChars n.toNat := by
  unfold intChars
  rw [if_neg (by omega)]

theorem pad2_shape (n : Int) (h1 : 1 ≤ n) (h2 : n ≤ 31) :
    ∃ b1 b2 : Char, pad2 n = [b1, b2] ∧ b1.isDigit = true ∧ b2.isDigit = true ∧
      digitsVal [b1, b2] = n := by
  rcases lt_or_le n 10 with h | h
  · refine ⟨'0', Nat.digitChar n.toNat, ?_, by decide, digitChar_isDigit _ (by omega), ?_⟩
    · unfold pad2
      rw [intChars_natChars n (by omega), natChars_base n.toNat (by omega)]
      rfl
    · rw [digitsVal_two, digitChar_toNat n.toNat (by omega)]
      have : ('0' : Char).toNat = 48 := by decide
      rw [this]
      omega
  · refine ⟨Nat.digitChar (n.toNat / 10), Nat.digitChar (n.toNat % 10), ?_,
      digitChar_isDigit _ (by omega), digitChar_isDigit _ (by omega), ?_⟩
    · unfold pad2
      rw [intChars_natChars n (by omega), natChars2 n.toNat (by omega) (by omega)]
      rfl
    · rw [digitsVal_two, digitChar_toNat (n.toNat / 10) (by omega),
        digitChar_toNat (n.toNat % 10) (by omega)]
      push_cast
      omega

theorem isoMatch_build (a1 a2 a3 a4 b1 b2 c1 c2 : Char) (rest : Str)
    (h1 : a1.isDigit = true) (h2 : a2.isDigit = true) (h3 : a3.isDigit = true)
    (h4 : a4.isDigit = true) (h5 : b1.isDigit = true) (h6 : b2.isDigit = true)
    (h7 : c1.isDigit = true) (h8 : c2.isDigit = true)
    (h9 : rest ≠ []) (h10 : rest.all isDotChar = true) :
    isoMatch ([a1, a2, a3, a4, '-', b1, b2, '-', c1, c2] ++ 'T' :: rest) =
      some ([a1, a2, a3, a4, '-', b1, b2, '-', c1, c2], rest) := by
  simp only [List.cons_append, List.nil_append, isoMatch]
  rw [if_pos]
  exact ⟨h1, h2, h3, h4, by trivial, h5, h6, by trivial, h7, h8, by trivial, h9, h10⟩

theorem isoMatch_some (s D rest : Str) (h : isoMatch s = some (D, rest)) :
    s = D ++ 'T' :: rest ∧
    (∃ a1 a2 a3 a4 b1 b2 c1 c2 : Char,
      D = [a1, a2, a3, a4, '-', b1, b2, '-', c1, c2] ∧
      a1.isDigit = true ∧ a2.isDigit = true ∧ a3.isDigit = true ∧ a4.isDigit = true ∧
      b1.isDigit = true ∧ b2.isDigit = true ∧ c1.isDigit = true ∧ c2.isDigit = true) ∧
    rest ≠ [] ∧ rest.all isDotChar = true := by
  rcases s with _ | ⟨y1, _ | ⟨y2, _ | ⟨y3, _ | ⟨y4, _ | ⟨h1, _ | ⟨mo1, _ | ⟨mo2,
    _ | ⟨h2, _ | ⟨d1, _ | ⟨d2, _ | ⟨t, tail⟩⟩⟩⟩⟩⟩⟩⟩⟩⟩⟩ <;>
    simp only [isoMatch] at h
  all_goals try exact Option.noConfusion h
  split_ifs at h with hc
  · obtain ⟨hD, hrest⟩ := Prod.mk.injEq _ _ _ _ ▸ Option.some.inj h
    subst hD
    subst hrest
    obtain ⟨c1, c2, c3, c4, c5, c6, c7, c8, c9, c10, c11, c12, c13⟩ := hc
    subst c5
    subst c8
    subst c11
    exact ⟨rfl, ⟨y1, y2, y3, y4, mo1, mo2, d1, d2, rfl, c1, c2, c3, c4, c6, c7, c9, c10⟩,
      c12, c13⟩

theorem jsEpochDays_eq_daysFromCivil (y m d : Int) (hy : ¬(0 ≤ y ∧ y ≤ 99))
    (hm1 : 1 ≤ m) (hm2 : m ≤ 12) : jsEpochDays y m d = daysFromCivil y m d := by
  simp only [jsEpochDays, daysFromCivil]
  rw [if_neg hy]
  omega

theorem jsEpochDays_range (y m d : Int) (h1 : 1000 ≤ y) (h2 : y ≤ 9998)
    (h3 : 1 ≤ m) (h4 : m ≤ 12) (h5 : 1 ≤ d) (h6 : d ≤ 31) :
    -354285 ≤ jsEpochDays y m d ∧ jsEpochDays y m d + 1 ≤ 2932896 := by
  rw [jsEpochDays_eq_daysFromCivil y m d (by omega) h3 h4]
  simp only [daysFromCivil]
  interval_cases m <;> omega

theorem civilFromDays_year_range (z : Int) (h1 : -354285 ≤ z) (h2 : z ≤ 2932896) :
    1000 ≤ (civilFromDays z).1 ∧ (civilFromDays z).1 ≤ 9999 := by
  have h := civilParts_spec z
  simp only [civilFromDays, civilAssemble]
  simp only [civilFromDays] at h
  omega

theorem nextDatePart_shape (D : Str)
    (hy : 1000 ≤ (civilFromDays (datePartDays D + 1)).1)
    (hy2 : (civilFromDays (datePartDays D + 1)).1 ≤ 9999) :
    ∃ a1 a2 a3 a4 b1 b2 c1 c2 : Char,
      nextDatePart D = [a1, a2, a3, a4, '-', b1, b2, '-', c1, c2] ∧
      a1.isDigit = true ∧ a2.isDigit = true ∧ a3.isDigit = true ∧ a4.isDigit = true ∧
      b1.isDigit = true ∧ b2.isDigit = true ∧ c1.isDigit = true ∧ c2.isDigit = true ∧
      digitsVal [a1, a2, a3, a4] = (civilFromDays (datePartDays D + 1)).1 ∧
      digitsVal [b1, b2] = (civilFromDays (datePartDays D + 1)).2.1 ∧
      digitsVal [c1, c2] = (civilFromDays (datePartDays D + 1)).2.2 := by
  have hb := civil_bounds (datePartDays D + 1)
  set c := civilFromDays (datePartDays D + 1) with hc
  have hy4 : natChars c.1.toNat = [Nat.digitChar (c.1.toNat / 1000),
      Nat.digitChar (c.1.toNat / 100 % 10), Nat.digitChar (c.1.toNat / 10 % 10),
      Nat.digitChar (c.1.toNat % 10)] :=
    natChars4 c.1.toNat (by omega) (by omega)
  obtain ⟨b1, b2, hbp, hb1, hb2, hbv⟩ := pad2_shape c.2.1 hb.1 (by omega)
  obtain ⟨c1, c2, hcp, hc1, hc2, hcv⟩ := pad2_shape c.2.2 hb.2.2.1 hb.2.2.2
  refine ⟨Nat.digitChar (c.1.toNat / 1000), Nat.digitChar (c.1.toNat / 100 % 10),
    Nat.digitChar (c.1.toNat / 10 % 10), Nat.digitChar (c.1.toNat % 10),
    b1, b2, c1, c2, ?_, digitChar_isDigit _ (by omega), digitChar_isDigit _ (by omega),
    digitChar_isDigit _ (by omega), digitChar_isDigit _ (by omega),
    hb1, hb2, hc1, hc2, ?_, hbv, hcv⟩
  · show intChars c.1 ++ '-' :: (pad2 c.2.1 ++ '-' :: pad2 c.2.2) = _
    rw [intChars_natChars c.1 (by omega), hy4, hbp, hcp]
    rfl
  · rw [← hy4, ← intChars_natChars c.1 (by omega), intChars_natChars c.1 (by omega),
      digitsVal_natChars4 c.1.toNat (by omega) (by omega)]
    omega

theorem natChars_all_digits (n : Nat) : ∀ c ∈ natChars n, c.isDigit = true := by
  induction n using Nat.strong_induction_on with
  | _ n ih =>
    by_cases h : n < 10
    · rw [natChars_base n h]
      intro c hc
      rw [List.mem_singleton] at hc
      subst hc
      exact digitChar_isDigit n (by omega)
    · rw [natChars_step n h]
      intro c hc
      rcases List.mem_append.mp hc with hc | hc
      · exact ih (n / 10) (Nat.div_lt_self (by omega) (by omega)) c hc
      · rw [List.mem_singleton] at hc
        subst hc
        exact digitChar_isDigit (n % 10) (by omega)

theorem natChars_length_pos (n : Nat) : 1 ≤ (natChars n).length := by
  by_cases h : n < 10
  · rw [natChars_base n h]
    simp
  · rw [natChars_step n h]
    simp

theorem natChars_length_ge_five (n : Nat) (h : 10000 ≤ n) :
    5 ≤ (natChars n).length := by
  rw [natChars_step n (by omega), natChars_step (n / 10) (by omega),
    natChars_step (n / 10 / 10) (by omega), natChars_step (n / 10 / 10 / 10) (by omega)]
  simp only [List.length_append, List.length_cons, List.length_nil]
  have := natChars_length_pos (n / 10 / 10 / 10 / 10)
  omega

theorem list_five_split (l : Str) (h : 5 ≤ l.length) :
    ∃ (e1 e2 e3 e4 e5 : Char) (t : Str), l = e1 :: e2 :: e3 :: e4 :: e5 :: t := by
  rcases l with _ | ⟨e1, _ | ⟨e2, _ | ⟨e3, _ | ⟨e4, _ | ⟨e5, t⟩⟩⟩⟩⟩ <;>
    simp only [List.length_nil, List.length_cons] at h <;>
    first
      | omega
      | exact ⟨e1, e2, e3, e4, e5, t, rfl⟩

/-- C3 counterexample: an event set whose set instant is strictly before its
rise instant (so the claim requires the normalization to move the set one day
later) but whose timestamps carry different calendar-date strings; the code
leaves it untouched. -/
theorem adjustMoonsetForNight_counterexample :
    adjustMoonsetForNight cexEvents = cexEvents ∧
    cexEvents.rise = some cexRise ∧ cexEvents.set = some cexSet ∧
    utcInstantSec cexRise = some 1735779600 ∧
    utcInstantSec cexSet = some 1735772400 ∧
    (1735772400 : Int) < 1735779600 := by
  refine ⟨by decide, rfl, rfl, by decide, by decide, by decide⟩

/-- C3 as amended: the normalization bumps the set only when rise and set are
both present, both parse, share the same 10-character date string and set is
lexicographically at most rise; then the corrected set keeps the original
time-of-day and offset text, still parses, and its calendar date is exactly
one day after the original (hence strictly after the shared rise date); a set
lexicographically after its rise is always left untouched. -/
theorem adjustMoonsetForNight_spec :
    (∀ (e : MoonEvents) (rs ss D rr sr : Str),
      e.rise = some rs → e.set = some ss →
      isoMatch rs = some (D, rr) → isoMatch ss = some (D, sr) →
      jsStrLe ss rs = true →
      1000 ≤ digitsVal (D.take 4) → digitsVal (D.take 4) ≤ 9998 →
      1 ≤ digitsVal ((D.drop 5).take 2) → digitsVal ((D.drop 5).take 2) ≤ 12 →
      1 ≤ digitsVal ((D.drop 8).take 2) → digitsVal ((D.drop 8).take 2) ≤ 31 →
      (adjustMoonsetForNight e).rise = some rs ∧
      (adjustMoonsetForNight e).set = some (nextDatePart D ++ 'T' :: sr) ∧
      isoMatch (nextDatePart D ++ 'T' :: sr) = some (nextDatePart D, sr) ∧
      datePartDays (nextDatePart D) = datePartDays D + 1) ∧
    (∀ (e : MoonEvents) (rs ss : Str),
      e.rise = some rs → e.set = some ss → jsStrLe ss rs = false →
      adjustMoonsetForNight e = e) := by
  constructor
  · intro e rs ss D rr sr hr hs hmr hms hle hy1 hy2 hm1 hm2 hd1 hd2
    have hadj : adjustMoonsetForNight e =
        { e with set := some (nextDatePart D ++ 'T' :: sr) } := by
      unfold adjustMoonsetForNight
      simp only [hr, hs, hmr, hms]
      split_ifs with hcc
      · rfl
      · exact absurd (by simp [hle]) hcc
    have hrange := jsEpochDays_range (digitsVal (D.take 4))
      (digitsVal ((D.drop 5).take 2)) (digitsVal ((D.drop 8).take 2))
      hy1 hy2 hm1 hm2 hd1 hd2
    have hdd : datePartDays D = jsEpochDays (digitsVal (D.take 4))
        (digitsVal ((D.drop 5).take 2)) (digitsVal ((D.drop 8).take 2)) := rfl
    have hyear := civilFromDays_year_range (datePartDays D + 1)
      (by rw [hdd]; omega) (by rw [hdd]; omega)
    obtain ⟨a1, a2, a3, a4, b1, b2, c1, c2, hshape, ha1, ha2, ha3, ha4, hb1, hb2,
      hc1, hc2, hva, hvb, hvc⟩ := nextDatePart_shape D hyear.1 hyear.2
    obtain ⟨-, -, hsrne, hsrdot⟩ := isoMatch_some ss D sr hms
    refine ⟨?_, ?_, ?_, ?_⟩
    · rw [hadj]
      exact hr
    · rw [hadj]
    · rw [hshape]
      exact isoMatch_build a1 a2 a3 a4 b1 b2 c1 c2 sr ha1 ha2 ha3 ha4 hb1 hb2 hc1 hc2
        hsrne hsrdot
    · have hmb := civil_bounds (datePartDays D + 1)
      have hslice : datePartDays (nextDatePart D) =
          jsEpochDays (civilFromDays (datePartDays D + 1)).1
            (civilFromDays (datePartDays D + 1)).2.1
            (civilFromDays (datePartDays D + 1)).2.2 := by
        have hunf : datePartDays (nextDatePart D) =
            jsEpochDays (digitsVal ((nextDatePart D).take 4))
              (digitsVal (((nextDatePart D).drop 5).take 2))
              (digitsVal (((nextDatePart D).drop 8).take 2)) := rfl
        rw [hunf, hshape]
        rw [show ([a1, a2, a3, a4, '-', b1, b2, '-', c1, c2].take 4) = [a1, a2, a3, a4]
            from rfl,
          show (([a1, a2, a3, a4, '-', b1, b2, '-', c1, c2].drop 5).take 2) = [b1, b2]
            from rfl,
          show (([a1, a2, a3, a4, '-', b1, b2, '-', c1, c2].drop 8).take 2) = [c1, c2]
            from rfl,
          hva, hvb, hvc]
      rw [hslice, jsEpochDays_eq_daysFromCivil (civilFromDays (datePartDays D + 1)).1
        (civilFromDays (datePartDays D + 1)).2.1 (civilFromDays (datePartDays D + 1)).2.2
        (by omega) hmb.1 hmb.2.1, days_civil_round]
  · intro e rs ss hr hs hnle
    unfold adjustMoonsetForNight
    rw [hr, hs]
    show (match isoMatch rs, isoMatch ss with
      | some (riseDatePart, _), some (setDatePart, setRest) =>
        if riseDatePart = setDatePart ∧ jsStrLe ss rs = true then
          { rise := some rs, set := some (nextDatePart setDatePart ++ 'T' :: setRest),
            high_moon := e.high_moon, low_moon := e.low_moon,
            phase_name := e.phase_name }
        else e
      | _, _ => e) = e
    rcases isoMatch rs with _ | ⟨Dr, rr⟩
    · rfl
    · rcases isoMatch ss with _ | ⟨Ds, sr⟩
      · rfl
      · show (if Dr = Ds ∧ jsStrLe ss rs = true then
            { rise := some rs, set := some (nextDatePart Ds ++ 'T' :: sr),
              high_moon := e.high_moon, low_moon := e.low_moon,
              phase_name := e.phase_name }
          else e) = e
        rw [if_neg]
        rintro ⟨-, hc⟩
        rw [hnle] at hc
        exact Bool.false_ne_true hc

/-- Witness for the amended claim C3 and its untouched direction at concrete
event sets. -/
theorem adjustMoonsetForNight_spec_witness :
    (adjustMoonsetForNight witEvents).set =
      some (nextDatePart ("2025-12-06".data) ++ 'T' :: ("09:08:00Z".data)) ∧
    datePartDays (nextDatePart ("2025-12-06".data)) =
      datePartDays ("2025-12-06".data) + 1 ∧
    adjustMoonsetForNight witEvents2 = witEvents2 := by
  have h := adjustMoonsetForNight_spec
  have h1 := h.1 witEvents witRise witSet ("2025-12-06".data) ("18:32:00Z".data)
    ("09:08:00Z".data) rfl rfl (by decide) (by decide) (by decide) (by decide)
    (by decide) (by decide) (by decide) (by decide) (by decide)
  exact ⟨h1.2.1, h1.2.2.2, h.2 witEvents2 witRise2 witSet2 rfl rfl (by decide)⟩

/-- C4: the night-boundary normalization is idempotent on every event set. -/
theorem adjustMoonsetForNight_idem (e : MoonEvents) :
    adjustMoonsetForNight (adjustMoonsetForNight e) = adjustMoonsetForNight e := by
  rcases hr : e.rise with _ | rs
  · have h1 : adjustMoonsetForNight e = e := by
      unfold adjustMoonsetForNight
      rw [hr]
    rw [h1]
    exact h1
  rcases hs : e.set with _ | ss
  · have h1 : adjustMoonsetForNight e = e := by
      unfold adjustMoonsetForNight
      rw [hr, hs]
    rw [h1]
    exact h1
  rcases hmr : isoMatch rs with _ | ⟨Dr, rr⟩
  · have h1 : adjustMoonsetForNight e = e := by
      unfold adjustMoonsetForNight
      rw [hr, hs]
      show (match isoMatch rs, isoMatch ss with
        | some (riseDatePart, _), some (setDatePart, setRest) =>
          if riseDatePart = setDatePart ∧ jsStrLe ss rs = true then
            { rise := some rs, set := some (nextDatePart setDatePart ++ 'T' :: setRest),
              high_moon := e.high_moon, low_moon := e.low_moon,
              phase_name := e.phase_name }
          else e
        | _, _ => e) = e
      rw [hmr]
    rw [h1]
    exact h1
  rcases hms : isoMatch ss with _ | ⟨Ds, sr⟩
  · have h1 : adjustMoonsetForNight e = e := by
      unfold adjustMoonsetForNight
      rw [hr, hs]
      show (match isoMatch rs, isoMatch ss with
        | some (riseDatePart, _), some (setDatePart, setRest) =>
          if riseDatePart = setDatePart ∧ jsStrLe ss rs = true then
            { rise := some rs, set := some (nextDatePart setDatePart ++ 'T' :: setRest),
              high_moon := e.high_moon, low_moon := e.low_moon,
              phase_name := e.phase_name }
          else e
        | _, _ => e) = e
      rw [hmr, hms]
    rw [h1]
    exact h1
  by_cases hcond : Dr = Ds ∧ jsStrLe ss rs = true
  case neg =>
    have h1 : adjustMoonsetForNight e = e := by
      unfold adjustMoonsetForNight
      rw [hr, hs]
      show (match isoMatch rs, isoMatch ss with
        | some (riseDatePart, _), some (setDatePart, setRest) =>
          if riseDatePart = setDatePart ∧ jsStrLe ss rs = true then
            { rise := some rs, set := some (nextDatePart setDatePart ++ 'T' :: setRest),
              high_moon := e.high_moon, low_moon := e.low_moon,
              phase_name := e.phase_name }
          else e
        | _, _ => e) = e
      rw [hmr, hms]
      show (if Dr = Ds ∧ jsStrLe ss rs = true then
          { rise := some rs, set := some (nextDatePart Ds ++ 'T' :: sr),
            high_moon := e.high_moon, low_moon := e.low_moon,
            phase_name := e.phase_name }
        else e) = e
      rw [if_neg hcond]
    rw [h1]
    exact h1
  case pos =>
    obtain ⟨hDeq, hle⟩ := hcond
    subst hDeq
    have h1 : adjustMoonsetForNight e =
        { rise := some rs, set := some (nextDatePart Dr ++ 'T' :: sr),
          high_moon := e.high_moon, low_moon := e.low_moon,
          phase_name := e.phase_name } := by
      unfold adjustMoonsetForNight
      rw [hr, hs]
      show (match isoMatch rs, isoMatch ss with
        | some (riseDatePart, _), some (setDatePart, setRest) =>
          if riseDatePart = setDatePart ∧ jsStrLe ss rs = true then
            { rise := some rs, set := some (nextDatePart setDatePart ++ 'T' :: setRest),
              high_moon := e.high_moon, low_moon := e.low_moon,
              phase_name := e.phase_name }
          else e
        | _, _ => e) =
        ({ rise := some rs, set := some (nextDatePart Dr ++ 'T' :: sr),
           high_moon := e.high_moon, low_moon := e.low_moon,
           phase_name := e.phase_name } : MoonEvents)
      rw [hmr, hms]
      show (if Dr = Dr ∧ jsStrLe ss rs = true then
          { rise := some rs, set := some (nextDatePart Dr ++ 'T' :: sr),
            high_moon := e.high_moon, low_moon := e.low_moon,
            phase_name := e.phase_name }
        else e) =
        ({ rise := some rs, set := some (nextDatePart Dr ++ 'T' :: sr),
           high_moon := e.high_moon, low_moon := e.low_moon,
           phase_name := e.phase_name } : MoonEvents)
      rw [if_pos ⟨rfl, hle⟩]
    rw [h1]
    obtain ⟨-, -, hsrne, hsrdot⟩ := isoMatch_some ss Dr sr hms
    unfold adjustMoonsetForNight
    show (match isoMatch rs, isoMatch (nextDatePart Dr ++ 'T' :: sr) with
      | some (riseDatePart, _), some (setDatePart, setRest) =>
        if riseDatePart = setDatePart ∧
            jsStrLe (nextDatePart Dr ++ 'T' :: sr) rs = true then
          { rise := some rs, set := some (nextDatePart setDatePart ++ 'T' :: setRest),
            high_moon := e.high_moon, low_moon := e.low_moon,
            phase_name := e.phase_name }
        else
          { rise := some rs, set := some (nextDatePart Dr ++ 'T' :: sr),
            high_moon := e.high_moon, low_moon := e.low_moon,
            phase_name := e.phase_name }
      | _, _ =>
        { rise := some rs, set := some (nextDatePart Dr ++ 'T' :: sr),
          high_moon := e.high_moon, low_moon := e.low_moon,
          phase_name := e.phase_name }) =
      ({ rise := some rs, set := some (nextDatePart Dr ++ 'T' :: sr),
         high_moon := e.high_moon, low_moon := e.low_moon,
         phase_name := e.phase_name } : MoonEvents)
    rw [hmr]
    by_cases hyr : 1000 ≤ (civilFromDays (datePartDays Dr + 1)).1 ∧
        (civilFromDays (datePartDays Dr + 1)).1 ≤ 9999
    · obtain ⟨a1, a2, a3, a4, b1, b2, c1, c2, hshape, ha1, ha2, ha3, ha4, hb1, hb2,
        hc1, hc2, hva, hvb, hvc⟩ := nextDatePart_shape Dr hyr.1 hyr.2
      have hmatch : isoMatch (nextDatePart Dr ++ 'T' :: sr) =
          some (nextDatePart Dr, sr) := by
        rw [hshape]
        exact isoMatch_build a1 a2 a3 a4 b1 b2 c1 c2 sr ha1 ha2 ha3 ha4 hb1 hb2
          hc1 hc2 hsrne hsrdot
      rw [hmatch]
      show (if Dr = nextDatePart Dr ∧
          jsStrLe (nextDatePart Dr ++ 'T' :: sr) rs = true then
          { rise := some rs, set := some (nextDatePart (nextDatePart Dr) ++ 'T' :: sr),
            high_moon := e.high_moon, low_moon := e.low_moon,
            phase_name := e.phase_name }
        else
          { rise := some rs, set := some (nextDatePart Dr ++ 'T' :: sr),
            high_moon := e.high_moon, low_moon := e.low_moon,
            phase_name := e.phase_name }) =
        ({ rise := some rs, set := some (nextDatePart Dr ++ 'T' :: sr),
           high_moon := e.high_moon, low_moon := e.low_moon,
           phase_name := e.phase_name } : MoonEvents)
      rw [if_neg]
      rintro ⟨hDD, -⟩
      have hyv : digitsVal (Dr.take 4) = (civilFromDays (datePartDays Dr + 1)).1 := by
        have hx : digitsVal ((nextDatePart Dr).take 4) = digitsVal (Dr.take 4) := by
          rw [← hDD]
        rw [← hx, hshape,
          show ([a1, a2, a3, a4, '-', b1, b2, '-', c1, c2].take 4) = [a1, a2, a3, a4]
            from rfl, hva]
      have hmv : digitsVal ((Dr.drop 5).take 2) =
          (civilFromDays (datePartDays Dr + 1)).2.1 := by
        have hx : digitsVal (((nextDatePart Dr).drop 5).take 2) =
            digitsVal ((Dr.drop 5).take 2) := by
          rw [← hDD]
        rw [← hx, hshape,
          show (([a1, a2, a3, a4, '-', b1, b2, '-', c1, c2].drop 5).take 2) = [b1, b2]
            from rfl, hvb]
      have hdv : digitsVal ((Dr.drop 8).take 2) =
          (civilFromDays (datePartDays Dr + 1)).2.2 := by
        have hx : digitsVal (((nextDatePart Dr).drop 8).take 2) =
            digitsVal ((Dr.drop 8).take 2) := by
          rw [← hDD]
        rw [← hx, hshape,
          show (([a1, a2, a3, a4, '-', b1, b2, '-', c1, c2].drop 8).take 2) = [c1, c2]
            from rfl, hvc]
      have hmb := civil_bounds (datePartDays Dr + 1)
      have hunf : datePartDays Dr = jsEpochDays (digitsVal (Dr.take 4))
          (digitsVal ((Dr.drop 5).take 2)) (digitsVal ((Dr.drop 8).take 2)) := rfl
      have hcontra : jsEpochDays (digitsVal (Dr.take 4))
          (digitsVal ((Dr.drop 5).take 2)) (digitsVal ((Dr.drop 8).take 2)) =
          datePartDays Dr + 1 := by
        rw [hyv, hmv, hdv,
          jsEpochDays_eq_daysFromCivil (civilFromDays (datePartDays Dr + 1)).1
            (civilFromDays (datePartDays Dr + 1)).2.1
            (civilFromDays (datePartDays Dr + 1)).2.2
            (by omega) hmb.1 hmb.2.1, days_civil_round]
      omega
    · have hnone : isoMatch (nextDatePart Dr ++ 'T' :: sr) = none := by
        rcases hm2 : isoMatch (nextDatePart Dr ++ 'T' :: sr) with _ | ⟨P, q⟩
        · rfl
        exfalso
        obtain ⟨hseq, ⟨x1, x2, x3, x4, w1, w2, v1, v2, hPshape, hx1, hx2, hx3, hx4,
          hw1, hw2, hv1, hv2⟩, -, -⟩ := isoMatch_some _ P q hm2
        rw [hPshape] at hseq
        have hnds : nextDatePart Dr =
            intChars (civilFromDays (datePartDays Dr + 1)).1 ++
              '-' :: (pad2 (civilFromDays (datePartDays Dr + 1)).2.1 ++
                '-' :: pad2 (civilFromDays (datePartDays Dr + 1)).2.2) := rfl
        rw [hnds] at hseq
        rw [not_and_or] at hyr
        push_neg at hyr
        rcases hyr with hyr | hyr
        · rcases lt_or_le (civilFromDays (datePartDays Dr + 1)).1 0 with hneg | hpos
          · rw [show intChars (civilFromDays (datePartDays Dr + 1)).1 =
                '-' :: natChars (civilFromDays (datePartDays Dr + 1)).1.natAbs from
                by unfold intChars; rw [if_pos hneg]] at hseq
            simp only [List.cons_append, List.append_assoc] at hseq
            obtain ⟨hh, -⟩ := List.cons_eq_cons.mp hseq
            rw [← hh] at hx1
            exact absurd hx1 (by decide)
          · set n := (civilFromDays (datePartDays Dr + 1)).1.toNat with hn
            rw [intChars_natChars _ hpos] at hseq
            have hn999 : n ≤ 999 := by omega
            rcases Nat.lt_or_ge n 10 with hc1' | hc1'
            · rw [natChars_base n hc1'] at hseq
              simp only [List.cons_append, List.nil_append, List.append_assoc] at hseq
              obtain ⟨-, hseq⟩ := List.cons_eq_cons.mp hseq
              obtain ⟨hh, -⟩ := List.cons_eq_cons.mp hseq
              rw [← hh] at hx2
              exact absurd hx2 (by decide)
            · rcases Nat.lt_or_ge n 100 with hc2' | hc2'
              · rw [natChars2 n hc1' (by omega)] at hseq
                simp only [List.cons_append, List.nil_append,
                  List.append_assoc] at hseq
                obtain ⟨-, hseq⟩ := List.cons_eq_cons.mp hseq
                obtain ⟨-, hseq⟩ := List.cons_eq_cons.mp hseq
                obtain ⟨hh, -⟩ := List.cons_eq_cons.mp hseq
                rw [← hh] at hx3
                exact absurd hx3 (by decide)
              · rw [natChars3 n hc2' hn999] at hseq
                simp only [List.cons_append, List.nil_append,
                  List.append_assoc] at hseq
                obtain ⟨-, hseq⟩ := List.cons_eq_cons.mp hseq
                obtain ⟨-, hseq⟩ := List.cons_eq_cons.mp hseq
                obtain ⟨-, hseq⟩ := List.cons_eq_cons.mp hseq
                obtain ⟨hh, -⟩ := List.cons_eq_cons.mp hseq
                rw [← hh] at hx4
                exact absurd hx4 (by decide)
        · set n := (civilFromDays (datePartDays Dr + 1)).1.toNat with hn
          have hpos : (0 : Int) ≤ (civilFromDays (datePartDays Dr + 1)).1 := by omega
          have hn5 : 10000 ≤ n := by omega
          rw [intChars_natChars _ hpos] at hseq
          obtain ⟨e1, e2, e3, e4, e5, t, hsplit5⟩ :=
            list_five_split (natChars n) (natChars_length_ge_five n hn5)
          have he5 : e5.isDigit = true := by
            apply natChars_all_digits n
            rw [hsplit5]
            simp
          rw [hsplit5] at hseq
          simp only [List.cons_append, List.nil_append, List.append_assoc] at hseq
          obtain ⟨-, hseq⟩ := List.cons_eq_cons.mp hseq
          obtain ⟨-, hseq⟩ := List.cons_eq_cons.mp hseq
          obtain ⟨-, hseq⟩ := List.cons_eq_cons.mp hseq
          obtain ⟨-, hseq⟩ := List.cons_eq_cons.mp hseq
          obtain ⟨hh, -⟩ := List.cons_eq_cons.mp hseq
          rw [hh] at he5
          exact absurd he5 (by decide)
      rw [hnone]


theorem pickStepBefore_inv (now : ℚ) (processed : List (Option IsoVal))
    (acc : Option ℚ × Option IsoVal) (iso : Option IsoVal)
    (h : InvB now processed acc) :
    InvB now (processed ++ [iso]) (pickStepBefore now acc iso) := by
  rcases hp : parseIso iso with _ | t
  · have hstep : pickStepBefore now acc iso = acc := by
      unfold pickStepBefore
      rw [hp]
    rw [hstep]
    rcases h with ⟨hacc, hall⟩ | ⟨b, h1, h2, h3, h4, h5⟩
    · refine Or.inl ⟨hacc, ?_⟩
      intro u hu
      rcases List.mem_append.mp hu with hu | hu
      · exact hall u hu
      · have : u = iso := List.mem_singleton.mp hu
        subst this
        simp [qualBefore, hp]
    · refine Or.inr ⟨b, h1, List.mem_append_left _ h2, h3, h4, ?_⟩
      intro u hu s hs hsle
      rcases List.mem_append.mp hu with hu | hu
      · exact h5 u hu s hs hsle
      · have : u = iso := List.mem_singleton.mp hu
        subst this
        rw [hp] at hs
        exact absurd hs (by simp)
  · rcases ha : acc.1 with _ | b
    · rcases h with ⟨hacc, hall⟩ | ⟨b, h1, -⟩
      · have hstep : pickStepBefore now acc iso =
            (if t ≤ now then (some t, iso) else acc) := by
          unfold pickStepBefore
          rw [hp, ha]
        by_cases ht : t ≤ now
        · rw [hstep, if_pos ht]
          refine Or.inr ⟨t, rfl, List.mem_append_right _ (by simp), hp, ht, ?_⟩
          intro u hu s hs hsle
          rcases List.mem_append.mp hu with hu | hu
          · exact absurd (hall u hu) (by simp [qualBefore, hs, hsle])
          · have : u = iso := List.mem_singleton.mp hu
            subst this
            rw [hp] at hs
            injection hs with hs
            exact hs.ge
        · rw [hstep, if_neg ht]
          refine Or.inl ⟨hacc, ?_⟩
          intro u hu
          rcases List.mem_append.mp hu with hu | hu
          · exact hall u hu
          · have : u = iso := List.mem_singleton.mp hu
            subst this
            simp [qualBefore, hp, ht]
      · rw [ha] at h1
        exact absurd h1 (by simp)
    · rcases h with ⟨hacc, -⟩ | ⟨b0, h1, h2, h3, h4, h5⟩
      · rw [hacc] at ha
        exact absurd ha (by simp)
      · have hb0 : b0 = b := by
          rw [ha] at h1
          injection h1 with h
          exact h.symm
        subst hb0
        have hstep : pickStepBefore now acc iso =
            (if t ≤ now ∧ b0 < t then (some t, iso) else acc) := by
          unfold pickStepBefore
          rw [hp, ha]
        by_cases hc : t ≤ now ∧ b0 < t
        · rw [hstep, if_pos hc]
          refine Or.inr ⟨t, rfl, List.mem_append_right _ (by simp), hp, hc.1, ?_⟩
          intro u hu s hs hsle
          rcases List.mem_append.mp hu with hu | hu
          · have := h5 u hu s hs hsle
            linarith [hc.2]
          · have : u = iso := List.mem_singleton.mp hu
            subst this
            rw [hp] at hs
            injection hs with hs
            exact hs.ge
        · rw [hstep, if_neg hc]
          refine Or.inr ⟨b0, ha, List.mem_append_left _ h2, h3, h4, ?_⟩
          intro u hu s hs hsle
          rcases List.mem_append.mp hu with hu | hu
          · exact h5 u hu s hs hsle
          · have : u = iso := List.mem_singleton.mp hu
            subst this
            rw [hp] at hs
            injection hs with hs
            subst hs
            rcases not_and_or.mp hc with hc | hc
            · exact absurd hsle hc
            · linarith [not_lt.mp hc]

theorem pickStepAfter_inv (now : ℚ) (processed : List (Option IsoVal))
    (acc : Option ℚ × Option IsoVal) (iso : Option IsoVal)
    (h : InvA now processed acc) :
    InvA now (processed ++ [iso]) (pickStepAfter now acc iso) := by
  rcases hp : parseIso iso with _ | t
  · have hstep : pickStepAfter now acc iso = acc := by
      unfold pickStepAfter
      rw [hp]
    rw [hstep]
    rcases h with ⟨hacc, hall⟩ | ⟨b, h1, h2, h3, h4, h5⟩
    · refine Or.inl ⟨hacc, ?_⟩
      intro u hu
      rcases List.mem_append.mp hu with hu | hu
      · exact hall u hu
      · have : u = iso := List.mem_singleton.mp hu
        subst this
        simp [qualAfter, hp]
    · refine Or.inr ⟨b, h1, List.mem_append_left _ h2, h3, h4, ?_⟩
      intro u hu s hs hsle
      rcases List.mem_append.mp hu with hu | hu
      · exact h5 u hu s hs hsle
      · have : u = iso := List.mem_singleton.mp hu
        subst this
        rw [hp] at hs
        exact absurd hs (by simp)
  · rcases ha : acc.1 with _ | b
    · rcases h with ⟨hacc, hall⟩ | ⟨b, h1, -⟩
      · have hstep : pickStepAfter now acc iso =
            (if now ≤ t then (some t, iso) else acc) := by
          unfold pickStepAfter
          rw [hp, ha]
        by_cases ht : now ≤ t
        · rw [hstep, if_pos ht]
          refine Or.inr ⟨t, rfl, List.mem_append_right _ (by simp), hp, ht, ?_⟩
          intro u hu s hs hsle
          rcases List.mem_append.mp hu with hu | hu
          · exact absurd (hall u hu) (by simp [qualAfter, hs, hsle])
          · have : u = iso := List.mem_singleton.mp hu
            subst this
            rw [hp] at hs
            injection hs with hs
            exact hs.le
        · rw [hstep, if_neg ht]
          refine Or.inl ⟨hacc, ?_⟩
          intro u hu
          rcases List.mem_append.mp hu with hu | hu
          · exact hall u hu
          · have : u = iso := List.mem_singleton.mp hu
            subst this
            simp [qualAfter, hp, ht]
      · rw [ha] at h1
        exact absurd h1 (by simp)
    · rcases h with ⟨hacc, -⟩ | ⟨b0, h1, h2, h3, h4, h5⟩
      · rw [hacc] at ha
        exact absurd ha (by simp)
      · have hb0 : b0 = b := by
          rw [ha] at h1
          injection h1 with h
          exact h.symm
        subst hb0
        have hstep : pickStepAfter now acc iso =
            (if now ≤ t ∧ t < b0 then (some t, iso) else acc) := by
          unfold pickStepAfter
          rw [hp, ha]
        by_cases hc : now ≤ t ∧ t < b0
        · rw [hstep, if_pos hc]
          refine Or.inr ⟨t, rfl, List.mem_append_right _ (by simp), hp, hc.1, ?_⟩
          intro u hu s hs hsle
          rcases List.mem_append.mp hu with hu | hu
          · have := h5 u hu s hs hsle
            linarith [hc.2]
          · have : u = iso := List.mem_singleton.mp hu
            subst this
            rw [hp] at hs
            injection hs with hs
            exact hs.le
        · rw [hstep, if_neg hc]
          refine Or.inr ⟨b0, ha, List.mem_append_left _ h2, h3, h4, ?_⟩
          intro u hu s hs hsle
          rcases List.mem_append.mp hu with hu | hu
          · exact h5 u hu s hs hsle
          · have : u = iso := List.mem_singleton.mp hu
            subst this
            rw [hp] at hs
            injection hs with hs
            subst hs
            rcases not_and_or.mp hc with hc | hc
            · exact absurd hsle hc
            · linarith [not_lt.mp hc]

theorem pickBefore_fold_inv (now : ℚ) (rest : List (Option IsoVal)) :
    ∀ (processed : List (Option IsoVal)) (acc : Option ℚ × Option IsoVal),
    InvB now processed acc →
    InvB now (processed ++ rest) (rest.foldl (pickStepBefore now) acc) := by
  induction rest with
  | nil =>
    intro processed acc h
    simpa using h
  | cons iso rest ih =>
    intro processed acc h
    have hstep := pickStepBefore_inv now processed acc iso h
    have := ih (processed ++ [iso]) (pickStepBefore now acc iso) hstep
    simpa [List.append_assoc] using this

theorem pickAfter_fold_inv (now : ℚ) (rest : List (Option IsoVal)) :
    ∀ (processed : List (Option IsoVal)) (acc : Option ℚ × Option IsoVal),
    InvA now processed acc →
    InvA now (processed ++ rest) (rest.foldl (pickStepAfter now) acc) := by
  induction rest with
  | nil =>
    intro processed acc h
    simpa using h
  | cons iso rest ih =>
    intro processed acc h
    have hstep := pickStepAfter_inv now processed acc iso h
    have := ih (processed ++ [iso]) (pickStepAfter now acc iso) hstep
    simpa [List.append_assoc] using this

theorem pickLatestBefore_isMax (candidates : List (Option IsoVal)) (now : ℚ)
    (h : hasQualBefore candidates now = true) :
    IsMaxBefore candidates now (pickLatestBeforeIso candidates now) := by
  have hinv := pickBefore_fold_inv now candidates [] (none, none)
    (Or.inl ⟨rfl, by simp⟩)
  rw [List.nil_append] at hinv
  rcases hinv with ⟨-, hall⟩ | ⟨b, -, h2, h3, h4, h5⟩
  · exfalso
    rw [hasQualBefore, List.any_eq_true] at h
    obtain ⟨u, hu, hq⟩ := h
    rw [hall u hu] at hq
    exact Bool.false_ne_true hq
  · exact ⟨h2, b, h3, h4, h5⟩

theorem pickLatestBefore_none (candidates : List (Option IsoVal)) (now : ℚ)
    (h : hasQualBefore candidates now = false) :
    pickLatestBeforeIso candidates now = none := by
  have hinv := pickBefore_fold_inv now candidates [] (none, none)
    (Or.inl ⟨rfl, by simp⟩)
  rw [List.nil_append] at hinv
  rcases hinv with ⟨hacc, -⟩ | ⟨b, -, h2, h3, h4, -⟩
  · show (candidates.foldl (pickStepBefore now) (none, none)).2 = none
    rw [hacc]
  · exfalso
    have : hasQualBefore candidates now = true := by
      rw [hasQualBefore, List.any_eq_true]
      exact ⟨_, h2, by simp [qualBefore, h3, h4]⟩
    rw [h] at this
    exact Bool.false_ne_true this

theorem pickEarliestAfter_isMin (candidates : List (Option IsoVal)) (now : ℚ)
    (h : hasQualAfter candidates now = true) :
    IsMinAfter candidates now (pickEarliestAfterIso candidates now) := by
  have hinv := pickAfter_fold_inv now candidates [] (none, none)
    (Or.inl ⟨rfl, by simp⟩)
  rw [List.nil_append] at hinv
  rcases hinv with ⟨-, hall⟩ | ⟨b, -, h2, h3, h4, h5⟩
  · exfalso
    rw [hasQualAfter, List.any_eq_true] at h
    obtain ⟨u, hu, hq⟩ := h
    rw [hall u hu] at hq
    exact Bool.false_ne_true hq
  · exact ⟨h2, b, h3, h4, h5⟩

theorem pickEarliestAfter_none (candidates : List (Option IsoVal)) (now : ℚ)
    (h : hasQualAfter candidates now = false) :
    pickEarliestAfterIso candidates now = none := by
  have hinv := pickAfter_fold_inv now candidates [] (none, none)
    (Or.inl ⟨rfl, by simp⟩)
  rw [List.nil_append] at hinv
  rcases hinv with ⟨hacc, -⟩ | ⟨b, -, h2, h3, h4, -⟩
  · show (candidates.foldl (pickStepAfter now) (none, none)).2 = none
    rw [hacc]
  · exfalso
    have : hasQualAfter candidates now = true := by
      rw [hasQualAfter, List.any_eq_true]
      exact ⟨_, h2, by simp [qualAfter, h3, h4]⟩
    rw [h] at this
    exact Bool.false_ne_true this


theorem useMoonToday_above_eq (ctx : Ctx) (prov : Providers)
    (pyT exT pyY exY : Ev)
    (hup : 0 < ctx.altDeg)
    (hpt : prov.py ctx.today = Except.ok pyT)
    (het : prov.ext ctx.today = Except.ok exT)
    (hpy : prov.py ctx.yesterday = Except.ok pyY)
    (hey : prov.ext ctx.yesterday = Except.ok exY)
    (hne : ctx.yesterday ≠ ctx.today) :
    useMoonToday ctx prov = Except.ok
      { internal :=
          { rise := pickLatestBeforeIso [pyT.rise, pyY.rise] ctx.now <|>
              pyT.rise <|> pyY.rise,
            set := pickEarliestAfterIso ([pyT.set] ++
                (if !isTruthy pyT.set || isPast pyT.set ctx.now then
                  match (prov.py ctx.tomorrow).toOption with
                  | some pyNext => [pyNext.set]
                  | none => []
                else [])) ctx.now <|> pyT.set <|>
              joinFind ([pyT.set] ++
                (if !isTruthy pyT.set || isPast pyT.set ctx.now then
                  match (prov.py ctx.tomorrow).toOption with
                  | some pyNext => [pyNext.set]
                  | none => []
                else [])),
            highMoon := pyT.highMoon <|> approximateHighMoon pyT.rise pyT.set,
            lowMoon := pyT.lowMoon,
            phaseName := pyT.phaseName,
            prevRise := pyY.rise, prevSet := pyY.set },
        external :=
          { rise := pickLatestBeforeIso [exT.rise, exY.rise] ctx.now <|>
              exT.rise <|> exY.rise,
            set := pickEarliestAfterIso ([exT.set] ++
                (if !isTruthy exT.set || isPast exT.set ctx.now then
                  match (prov.ext ctx.tomorrow).toOption with
                  | some extNext => [extNext.set]
                  | none => []
                else [])) ctx.now <|> exT.set <|>
              joinFind ([exT.set] ++
                (if !isTruthy exT.set || isPast exT.set ctx.now then
                  match (prov.ext ctx.tomorrow).toOption with
                  | some extNext => [extNext.set]
                  | none => []
                else [])),
            highMoon := exT.highMoon <|> approximateHighMoon exT.rise exT.set,
            lowMoon := exT.lowMoon,
            phaseName := exT.phaseName <|>
              phaseNameFromDeg (some (exT.phase.getD 0)),
            prevRise := exY.rise, prevSet := exY.set } } := by
  have hb : decide (0 < ctx.altDeg) = true := decide_eq_true hup
  simp only [useMoonToday, hpt, het, hb, Bool.not_true, Bool.and_false,
    Bool.false_eq_true, if_false, eq_self_iff_true, if_true, if_neg hne,
    hpy, hey]

theorem useMoonToday_below_eq (ctx : Ctx) (prov : Providers)
    (pyT exT pyY exY : Ev)
    (hdn : ctx.altDeg ≤ 0)
    (hpt : prov.py ctx.today = Except.ok pyT)
    (het : prov.ext ctx.today = Except.ok exT)
    (hpy : prov.py ctx.yesterday = Except.ok pyY)
    (hey : prov.ext ctx.yesterday = Except.ok exY)
    (hne : ctx.yesterday ≠ ctx.today)
    (hnp : isPast (exT.set <|> pyT.set) ctx.now = false) :
    useMoonToday ctx prov = Except.ok
      { internal :=
          { rise := pickEarliestAfterIso ([pyT.rise] ++
                (if !isTruthy pyT.rise || isPast pyT.rise ctx.now then
                  match (prov.py ctx.tomorrow).toOption with
                  | some pyNext => [pyNext.rise]
                  | none => []
                else [])) ctx.now <|> pyT.rise <|>
              joinFind ([pyT.rise] ++
                (if !isTruthy pyT.rise || isPast pyT.rise ctx.now then
                  match (prov.py ctx.tomorrow).toOption with
                  | some pyNext => [pyNext.rise]
                  | none => []
                else [])),
            set := pickLatestBeforeIso [pyY.set, pyT.set] ctx.now <|>
              pyY.set <|> pyT.set,
            highMoon := pyT.highMoon <|> approximateHighMoon pyT.rise pyT.set,
            lowMoon := pyT.lowMoon,
            phaseName := pyT.phaseName,
            prevRise := pyY.rise, prevSet := pyY.set },
        external :=
          { rise := pickEarliestAfterIso ([exT.rise] ++
                (if !isTruthy exT.rise || isPast exT.rise ctx.now then
                  match (prov.ext ctx.tomorrow).toOption with
                  | some extNext => [extNext.rise]
                  | none => []
                else [])) ctx.now <|> exT.rise <|>
              joinFind ([exT.rise] ++
                (if !isTruthy exT.rise || isPast exT.rise ctx.now then
                  match (prov.ext ctx.tomorrow).toOption with
                  | some extNext => [extNext.rise]
                  | none => []
                else [])),
            set := pickLatestBeforeIso [exY.set, exT.set] ctx.now <|>
              exY.set <|> exT.set,
            highMoon := exT.highMoon <|> approximateHighMoon exT.rise exT.set,
            lowMoon := exT.lowMoon,
            phaseName := exT.phaseName <|>
              phaseNameFromDeg (some (exT.phase.getD 0)),
            prevRise := exY.rise, prevSet := exY.set } } := by
  have hb : decide (0 < ctx.altDeg) = false := decide_eq_false (not_lt.mpr hdn)
  simp only [useMoonToday, hpt, het, hb, Bool.not_false, Bool.and_true, hnp,
    Bool.false_eq_true, if_false, eq_self_iff_true, if_true, if_neg hne,
    hpy, hey]


theorem isMax_orElse (candidates : List (Option IsoVal)) (now : ℚ)
    (fb : Option IsoVal)
    (h : IsMaxBefore candidates now (pickLatestBeforeIso candidates now)) :
    IsMaxBefore candidates now (pickLatestBeforeIso candidates now <|> fb) := by
  obtain ⟨hmem, t, hpv, h3, h4⟩ := h
  cases hc : pickLatestBeforeIso candidates now with
  | none =>
    rw [hc] at hpv
    exact absurd hpv (by simp [parseIso])
  | some x =>
    rw [hc] at hmem hpv
    simpa using ⟨hmem, t, hpv, h3, h4⟩

theorem isMin_orElse (candidates : List (Option IsoVal)) (now : ℚ)
    (fb : Option IsoVal)
    (h : IsMinAfter candidates now (pickEarliestAfterIso candidates now)) :
    IsMinAfter candidates now (pickEarliestAfterIso candidates now <|> fb) := by
  obtain ⟨hmem, t, hpv, h3, h4⟩ := h
  cases hc : pickEarliestAfterIso candidates now with
  | none =>
    rw [hc] at hpv
    exact absurd hpv (by simp [parseIso])
  | some x =>
    rw [hc] at hmem hpv
    simpa using ⟨hmem, t, hpv, h3, h4⟩

/-- C1: in every evaluation with the moon above the horizon at now (altitude
greater than zero) whose primary fetches succeed, the displayed rise of each
source is the latest candidate rise at or before now among the active (today)
and prior day, and the displayed set is the earliest candidate set at or
after now among today's set extended with the following day's set only when
today's set is absent or already past; each whenever such a qualifying
candidate exists. -/
theorem useMoonToday_above_spec (ctx : Ctx) (prov : Providers)
    (pyT exT pyY exY : Ev)
    (hup : 0 < ctx.altDeg)
    (hpt : prov.py ctx.today = Except.ok pyT)
    (het : prov.ext ctx.today = Except.ok exT)
    (hpy : prov.py ctx.yesterday = Except.ok pyY)
    (hey : prov.ext ctx.yesterday = Except.ok exY)
    (hne : ctx.yesterday ≠ ctx.today) :
    ∃ r, useMoonToday ctx prov = Except.ok r ∧
      (hasQualBefore [pyT.rise, pyY.rise] ctx.now = true →
        IsMaxBefore [pyT.rise, pyY.rise] ctx.now r.internal.rise) ∧
      (hasQualBefore [exT.rise, exY.rise] ctx.now = true →
        IsMaxBefore [exT.rise, exY.rise] ctx.now r.external.rise) ∧
      (hasQualAfter (nextDayExtended pyT.set (prov.py ctx.tomorrow) Ev.set
          ctx.now) ctx.now = true →
        IsMinAfter (nextDayExtended pyT.set (prov.py ctx.tomorrow) Ev.set
          ctx.now) ctx.now r.internal.set) ∧
      (hasQualAfter (nextDayExtended exT.set (prov.ext ctx.tomorrow) Ev.set
          ctx.now) ctx.now = true →
        IsMinAfter (nextDayExtended exT.set (prov.ext ctx.tomorrow) Ev.set
          ctx.now) ctx.now r.external.set) := by
  rw [useMoonToday_above_eq ctx prov pyT exT pyY exY hup hpt het hpy hey hne]
  refine ⟨_, rfl, fun h => ?_, fun h => ?_, fun h => ?_, fun h => ?_⟩
  · show IsMaxBefore [pyT.rise, pyY.rise] ctx.now
      (pickLatestBeforeIso [pyT.rise, pyY.rise] ctx.now <|>
        (pyT.rise <|> pyY.rise))
    exact isMax_orElse _ _ _ (pickLatestBefore_isMax _ _ h)
  · show IsMaxBefore [exT.rise, exY.rise] ctx.now
      (pickLatestBeforeIso [exT.rise, exY.rise] ctx.now <|>
        (exT.rise <|> exY.rise))
    exact isMax_orElse _ _ _ (pickLatestBefore_isMax _ _ h)
  · show IsMinAfter (nextDayExtended pyT.set (prov.py ctx.tomorrow) Ev.set
      ctx.now) ctx.now
      (pickEarliestAfterIso (nextDayExtended pyT.set (prov.py ctx.tomorrow)
        Ev.set ctx.now) ctx.now <|>
        (pyT.set <|> joinFind (nextDayExtended pyT.set (prov.py ctx.tomorrow)
          Ev.set ctx.now)))
    exact isMin_orElse _ _ _ (pickEarliestAfter_isMin _ _ h)
  · show IsMinAfter (nextDayExtended exT.set (prov.ext ctx.tomorrow) Ev.set
      ctx.now) ctx.now
      (pickEarliestAfterIso (nextDayExtended exT.set (prov.ext ctx.tomorrow)
        Ev.set ctx.now) ctx.now <|>
        (exT.set <|> joinFind (nextDayExtended exT.set (prov.ext ctx.tomorrow)
          Ev.set ctx.now)))
    exact isMin_orElse _ _ _ (pickEarliestAfter_isMin _ _ h)

theorem useMoonToday_above_spec_witness :
    ∃ r, useMoonToday c1Ctx c1Prov = Except.ok r ∧
      (hasQualBefore [c1Ev.rise, c1Ev.rise] c1Ctx.now = true →
        IsMaxBefore [c1Ev.rise, c1Ev.rise] c1Ctx.now r.internal.rise) ∧
      (hasQualBefore [c1Ev.rise, c1Ev.rise] c1Ctx.now = true →
        IsMaxBefore [c1Ev.rise, c1Ev.rise] c1Ctx.now r.external.rise) ∧
      (hasQualAfter (nextDayExtended c1Ev.set (c1Prov.py c1Ctx.tomorrow)
          Ev.set c1Ctx.now) c1Ctx.now = true →
        IsMinAfter (nextDayExtended c1Ev.set (c1Prov.py c1Ctx.tomorrow)
          Ev.set c1Ctx.now) c1Ctx.now r.internal.set) ∧
      (hasQualAfter (nextDayExtended c1Ev.set (c1Prov.ext c1Ctx.tomorrow)
          Ev.set c1Ctx.now) c1Ctx.now = true →
        IsMinAfter (nextDayExtended c1Ev.set (c1Prov.ext c1Ctx.tomorrow)
          Ev.set c1Ctx.now) c1Ctx.now r.external.set) :=
  useMoonToday_above_spec c1Ctx c1Prov c1Ev c1Ev c1Ev c1Ev (by decide)
    rfl rfl rfl rfl (by decide)


/-- C9 counterexample: in the Above state with no rise candidate at or
before now (today's rise is in the future and yesterday's is absent), the
displayed rise is not left unset; the nullish-coalescing fallback chain
returns today's raw future rise instead. -/
theorem useMoonToday_unset_counterexample :
    ∃ r, useMoonToday c9Ctx c9Prov = Except.ok r ∧
      0 < c9Ctx.altDeg ∧
      hasQualBefore [c9Ev.rise, c9EvY.rise] c9Ctx.now = false ∧
      r.internal.rise = some (IsoVal.good 1380) ∧
      r.internal.rise ≠ none := by
  refine ⟨_, rfl, by decide, by decide, by decide, by decide⟩

/-- C2 counterexample: with the moon below the horizon but today's moonset
already passed, the reconciler rolls its active day over to tomorrow, so the
displayed rise is tomorrow's 08:00 rise even though today still has a
qualifying future rise at 23:00; the claimed minimum over today's candidates
(23:00) is not what is displayed. -/
theorem useMoonToday_below_counterexample :
    ∃ r, useMoonToday c2Ctx c2Prov = Except.ok r ∧
      c2Ctx.altDeg ≤ 0 ∧
      isTruthy c2EvT.rise = true ∧
      isPast c2EvT.rise c2Ctx.now = false ∧
      IsMinAfter [c2EvT.rise] c2Ctx.now (some (IsoVal.good 1380)) ∧
      r.internal.rise = some (IsoVal.good 1920) ∧
      r.internal.rise ≠ some (IsoVal.good 1380) := by
  refine ⟨_, rfl, by decide, by decide, by decide, ?_, by decide, by decide⟩
  refine ⟨by simp [c2EvT], 1380, rfl, by decide, ?_⟩
  intro u hu s hs hns
  have hu2 : u = some (IsoVal.good 1380) := by simpa [c2EvT] using hu
  subst hu2
  simp [parseIso] at hs
  linarith [le_of_eq hs, le_of_eq hs.symm]

/-- C2 amended: in the Below state, provided today's reference moonset has
not yet passed (no rollover), the displayed rise of each source is the
earliest candidate rise at or after now among today's rise extended with the
next day's rise only when today's rise is absent or already past, and the
displayed set is the latest candidate set at or before now among the prior
day and today; each whenever a qualifying candidate exists. When the moonset
has passed, the active day rolls over to tomorrow instead (see the
counterexample). -/
theorem useMoonToday_below_spec (ctx : Ctx) (prov : Providers)
    (pyT exT pyY exY : Ev)
    (hdn : ctx.altDeg ≤ 0)
    (hpt : prov.py ctx.today = Except.ok pyT)
    (het : prov.ext ctx.today = Except.ok exT)
    (hpy : prov.py ctx.yesterday = Except.ok pyY)
    (hey : prov.ext ctx.yesterday = Except.ok exY)
    (hne : ctx.yesterday ≠ ctx.today)
    (hnp : isPast (exT.set <|> pyT.set) ctx.now = false) :
    ∃ r, useMoonToday ctx prov = Except.ok r ∧
      (hasQualAfter (nextDayExtended pyT.rise (prov.py ctx.tomorrow) Ev.rise
          ctx.now) ctx.now = true →
        IsMinAfter (nextDayExtended pyT.rise (prov.py ctx.tomorrow) Ev.rise
          ctx.now) ctx.now r.internal.rise) ∧
      (hasQualAfter (nextDayExtended exT.rise (prov.ext ctx.tomorrow) Ev.rise
          ctx.now) ctx.now = true →
        IsMinAfter (nextDayExtended exT.rise (prov.ext ctx.tomorrow) Ev.rise
          ctx.now) ctx.now r.external.rise) ∧
      (hasQualBefore [pyY.set, pyT.set] ctx.now = true →
        IsMaxBefore [pyY.set, pyT.set] ctx.now r.internal.set) ∧
      (hasQualBefore [exY.set, exT.set] ctx.now = true →
        IsMaxBefore [exY.set, exT.set] ctx.now r.external.set) := by
  rw [useMoonToday_below_eq ctx prov pyT exT pyY exY hdn hpt het hpy hey
    hne hnp]
  refine ⟨_, rfl, fun h => ?_, fun h => ?_, fun h => ?_, fun h => ?_⟩
  · show IsMinAfter (nextDayExtended pyT.rise (prov.py ctx.tomorrow) Ev.rise
      ctx.now) ctx.now
      (pickEarliestAfterIso (nextDayExtended pyT.rise (prov.py ctx.tomorrow)
        Ev.rise ctx.now) ctx.now <|>
        (pyT.rise <|> joinFind (nextDayExtended pyT.rise (prov.py ctx.tomorrow)
          Ev.rise ctx.now)))
    exact isMin_orElse _ _ _ (pickEarliestAfter_isMin _ _ h)
  · show IsMinAfter (nextDayExtended exT.rise (prov.ext ctx.tomorrow) Ev.rise
      ctx.now) ctx.now
      (pickEarliestAfterIso (nextDayExtended exT.rise (prov.ext ctx.tomorrow)
        Ev.rise ctx.now) ctx.now <|>
        (exT.rise <|> joinFind (nextDayExtended exT.rise (prov.ext ctx.tomorrow)
          Ev.rise ctx.now)))
    exact isMin_orElse _ _ _ (pickEarliestAfter_isMin _ _ h)
  · show IsMaxBefore [pyY.set, pyT.set] ctx.now
      (pickLatestBeforeIso [pyY.set, pyT.set] ctx.now <|>
        (pyY.set <|> pyT.set))
    exact isMax_orElse _ _ _ (pickLatestBefore_isMax _ _ h)
  · show IsMaxBefore [exY.set, exT.set] ctx.now
      (pickLatestBeforeIso [exY.set, exT.set] ctx.now <|>
        (exY.set <|> exT.set))
    exact isMax_orElse _ _ _ (pickLatestBefore_isMax _ _ h)

theorem useMoonToday_below_spec_witness :
    ∃ r, useMoonToday c2wCtx c2wProv = Except.ok r ∧
      (hasQualAfter (nextDayExtended c2wEvT.rise (c2wProv.py c2wCtx.tomorrow)
          Ev.rise c2wCtx.now) c2wCtx.now = true →
        IsMinAfter (nextDayExtended c2wEvT.rise (c2wProv.py c2wCtx.tomorrow)
          Ev.rise c2wCtx.now) c2wCtx.now r.internal.rise) ∧
      (hasQualAfter (nextDayExtended c2wEvT.rise (c2wProv.ext c2wCtx.tomorrow)
          Ev.rise c2wCtx.now) c2wCtx.now = true →
        IsMinAfter (nextDayExtended c2wEvT.rise (c2wProv.ext c2wCtx.tomorrow)
          Ev.rise c2wCtx.now) c2wCtx.now r.external.rise) ∧
      (hasQualBefore [c2wEvY.set, c2wEvT.set] c2wCtx.now = true →
        IsMaxBefore [c2wEvY.set, c2wEvT.set] c2wCtx.now r.internal.set) ∧
      (hasQualBefore [c2wEvY.set, c2wEvT.set] c2wCtx.now = true →
        IsMaxBefore [c2wEvY.set, c2wEvT.set] c2wCtx.now r.external.set) :=
  useMoonToday_below_spec c2wCtx c2wProv c2wEvT c2wEvT c2wEvY c2wEvY
    (by decide) rfl rfl rfl rfl (by decide) (by decide)


/-- C7 counterexample: exactly one of the two providers (the external one)
fails while the internal provider succeeds on every date, yet the whole
evaluation fails instead of degrading to single-source output, because the
primary fetches are awaited without a catch. -/
theorem useMoonToday_provider_failure_counterexample :
    useMoonToday c7Ctx c7Prov = Except.error () ∧
    (∀ k, c7Prov.py k = Except.ok c7Ev) ∧
    c7Prov.ext c7Ctx.today = Except.error () :=
  ⟨rfl, fun _ => rfl, rfl⟩

/-- C7 amended: when both providers succeed on the primary fetch window
(today, yesterday and tomorrow), the evaluation always succeeds; only the
lazy next-day fetches are guarded by try/catch, so their failures (e.g. at
the day after tomorrow) never fail the evaluation. -/
theorem useMoonToday_primary_ok (ctx : Ctx) (prov : Providers)
    (pyT exT pyY exY pyM exM : Ev)
    (hpt : prov.py ctx.today = Except.ok pyT)
    (het : prov.ext ctx.today = Except.ok exT)
    (hpy : prov.py ctx.yesterday = Except.ok pyY)
    (hey : prov.ext ctx.yesterday = Except.ok exY)
    (hpm : prov.py ctx.tomorrow = Except.ok pyM)
    (hem : prov.ext ctx.tomorrow = Except.ok exM) :
    (useMoonToday ctx prov).isOk = true := by
  simp only [useMoonToday, hpt, het]
  split_ifs <;> (try simp only [hpt, het, hpy, hey, hpm, hem]) <;> rfl

theorem useMoonToday_primary_ok_witness :
    (useMoonToday c7Ctx c7wProv).isOk = true :=
  useMoonToday_primary_ok c7Ctx c7wProv c7Ev c7Ev c7Ev c7Ev c7Ev c7Ev
    rfl rfl rfl rfl rfl rfl


set_option maxRecDepth 2048 in
/-- C8: the reconciled view is a deterministic function of the supplied now
(and context derived from it) and the provider responses at the four queried
date keys: two evaluations with the same context and providers that agree on
today, yesterday, tomorrow and the day after tomorrow produce identical
output. -/
theorem useMoonToday_deterministic (ctx : Ctx) (p1 p2 : Providers)
    (h1 : p1.py ctx.today = p2.py ctx.today)
    (h2 : p1.ext ctx.today = p2.ext ctx.today)
    (h3 : p1.py ctx.yesterday = p2.py ctx.yesterday)
    (h4 : p1.ext ctx.yesterday = p2.ext ctx.yesterday)
    (h5 : p1.py ctx.tomorrow = p2.py ctx.tomorrow)
    (h6 : p1.ext ctx.tomorrow = p2.ext ctx.tomorrow)
    (h7 : p1.py ctx.dayAfterTomorrow = p2.py ctx.dayAfterTomorrow)
    (h8 : p1.ext ctx.dayAfterTomorrow = p2.ext ctx.dayAfterTomorrow) :
    useMoonToday ctx p1 = useMoonToday ctx p2 := by
  simp only [useMoonToday, h1, h2]
  rcases hA : p2.py ctx.today with _ | pyT <;>
    rcases hB : p2.ext ctx.today with _ | exT <;>
    simp only [hA, hB] <;>
    try rfl
  split_ifs <;> simp only [h1, h2, h3, h4, h5, h6, h7, h8]

theorem useMoonToday_deterministic_witness :
    useMoonToday c8Ctx c8P1 = useMoonToday c8Ctx c8P2 :=
  useMoonToday_deterministic c8Ctx c8P1 c8P2 rfl rfl rfl rfl rfl rfl rfl rfl


theorem useMoonToday_rollover_eq (ctx : Ctx) (prov : Providers)
    (pyT exT pyM exM : Ev)
    (hdn : ctx.altDeg ≤ 0)
    (hpt : prov.py ctx.today = Except.ok pyT)
    (het : prov.ext ctx.today = Except.ok exT)
    (hpm : prov.py ctx.tomorrow = Except.ok pyM)
    (hem : prov.ext ctx.tomorrow = Except.ok exM)
    (hmt : ctx.tomorrow ≠ ctx.today)
    (hp : isPast (exT.set <|> pyT.set) ctx.now = true) :
    useMoonToday ctx prov = Except.ok
      { internal :=
          { rise := pickEarliestAfterIso ([pyM.rise] ++
                (if !isTruthy pyM.rise || isPast pyM.rise ctx.now then
                  match (prov.py ctx.dayAfterTomorrow).toOption with
                  | some pyNext => [pyNext.rise]
                  | none => []
                else [])) ctx.now <|> pyM.rise <|>
              joinFind ([pyM.rise] ++
                (if !isTruthy pyM.rise || isPast pyM.rise ctx.now then
                  match (prov.py ctx.dayAfterTomorrow).toOption with
                  | some pyNext => [pyNext.rise]
                  | none => []
                else [])),
            set := pickLatestBeforeIso [pyT.set, pyM.set] ctx.now <|>
              pyT.set <|> pyM.set,
            highMoon := pyM.highMoon <|> approximateHighMoon pyM.rise pyM.set,
            lowMoon := pyM.lowMoon,
            phaseName := pyM.phaseName,
            prevRise := pyT.rise, prevSet := pyT.set },
        external :=
          { rise := pickEarliestAfterIso ([exM.rise] ++
                (if !isTruthy exM.rise || isPast exM.rise ctx.now then
                  match (prov.ext ctx.dayAfterTomorrow).toOption with
                  | some extNext => [extNext.rise]
                  | none => []
                else [])) ctx.now <|> exM.rise <|>
              joinFind ([exM.rise] ++
                (if !isTruthy exM.rise || isPast exM.rise ctx.now then
                  match (prov.ext ctx.dayAfterTomorrow).toOption with
                  | some extNext => [extNext.rise]
                  | none => []
                else [])),
            set := pickLatestBeforeIso [exT.set, exM.set] ctx.now <|>
              exT.set <|> exM.set,
            highMoon := exM.highMoon <|> approximateHighMoon exM.rise exM.set,
            lowMoon := exM.lowMoon,
            phaseName := exM.phaseName <|>
              phaseNameFromDeg (some (exM.phase.getD 0)),
            prevRise := exT.rise, prevSet := exT.set } } := by
  have hb : decide (0 < ctx.altDeg) = false := decide_eq_false (not_lt.mpr hdn)
  simp only [useMoonToday, hpt, het, hb, Bool.not_false, Bool.and_true, hp,
    Bool.false_eq_true, if_false, eq_self_iff_true, if_true, if_neg hmt,
    hpm, hem]

/-- C9 amended: when no candidate satisfies the selection comparison against
now, the displayed field is not left unset but falls back through the
nullish-coalescing chain, following the order of the searched candidate
list: on the backward-searched side the raw value of the first searched day
and then the second (active then previous for the Above rise, previous then
active for the Below set), and on the forward-searched side the raw active
value and then the first truthy candidate; the field ends up unset only when
those fallbacks are all absent. Stated for the Above state, the Below state
without rollover, and the rolled-over Below state (active day tomorrow,
previous day today). -/
theorem useMoonToday_fallback_spec :
    (∀ (ctx : Ctx) (prov : Providers) (pyT exT pyY exY : Ev),
      0 < ctx.altDeg →
      prov.py ctx.today = Except.ok pyT →
      prov.ext ctx.today = Except.ok exT →
      prov.py ctx.yesterday = Except.ok pyY →
      prov.ext ctx.yesterday = Except.ok exY →
      ctx.yesterday ≠ ctx.today →
      ∃ r, useMoonToday ctx prov = Except.ok r ∧
        (hasQualBefore [pyT.rise, pyY.rise] ctx.now = false →
          r.internal.rise = (pyT.rise <|> pyY.rise)) ∧
        (hasQualBefore [exT.rise, exY.rise] ctx.now = false →
          r.external.rise = (exT.rise <|> exY.rise)) ∧
        (hasQualAfter (nextDayExtended pyT.set (prov.py ctx.tomorrow) Ev.set
            ctx.now) ctx.now = false →
          r.internal.set = (pyT.set <|> joinFind (nextDayExtended pyT.set
            (prov.py ctx.tomorrow) Ev.set ctx.now))) ∧
        (hasQualAfter (nextDayExtended exT.set (prov.ext ctx.tomorrow) Ev.set
            ctx.now) ctx.now = false →
          r.external.set = (exT.set <|> joinFind (nextDayExtended exT.set
            (prov.ext ctx.tomorrow) Ev.set ctx.now)))) ∧
    (∀ (ctx : Ctx) (prov : Providers) (pyT exT pyY exY : Ev),
      ctx.altDeg ≤ 0 →
      prov.py ctx.today = Except.ok pyT →
      prov.ext ctx.today = Except.ok exT →
      prov.py ctx.yesterday = Except.ok pyY →
      prov.ext ctx.yesterday = Except.ok exY →
      ctx.yesterday ≠ ctx.today →
      isPast (exT.set <|> pyT.set) ctx.now = false →
      ∃ r, useMoonToday ctx prov = Except.ok r ∧
        (hasQualAfter (nextDayExtended pyT.rise (prov.py ctx.tomorrow) Ev.rise
            ctx.now) ctx.now = false →
          r.internal.rise = (pyT.rise <|> joinFind (nextDayExtended pyT.rise
            (prov.py ctx.tomorrow) Ev.rise ctx.now))) ∧
        (hasQualAfter (nextDayExtended exT.rise (prov.ext ctx.tomorrow) Ev.rise
            ctx.now) ctx.now = false →
          r.external.rise = (exT.rise <|> joinFind (nextDayExtended exT.rise
            (prov.ext ctx.tomorrow) Ev.rise ctx.now))) ∧
        (hasQualBefore [pyY.set, pyT.set] ctx.now = false →
          r.internal.set = (pyY.set <|> pyT.set)) ∧
        (hasQualBefore [exY.set, exT.set] ctx.now = false →
          r.external.set = (exY.set <|> exT.set))) ∧
    (∀ (ctx : Ctx) (prov : Providers) (pyT exT pyM exM : Ev),
      ctx.altDeg ≤ 0 →
      prov.py ctx.today = Except.ok pyT →
      prov.ext ctx.today = Except.ok exT →
      prov.py ctx.tomorrow = Except.ok pyM →
      prov.ext ctx.tomorrow = Except.ok exM →
      ctx.tomorrow ≠ ctx.today →
      isPast (exT.set <|> pyT.set) ctx.now = true →
      ∃ r, useMoonToday ctx prov = Except.ok r ∧
        (hasQualAfter (nextDayExtended pyM.rise (prov.py ctx.dayAfterTomorrow)
            Ev.rise ctx.now) ctx.now = false →
          r.internal.rise = (pyM.rise <|> joinFind (nextDayExtended pyM.rise
            (prov.py ctx.dayAfterTomorrow) Ev.rise ctx.now))) ∧
        (hasQualAfter (nextDayExtended exM.rise (prov.ext ctx.dayAfterTomorrow)
            Ev.rise ctx.now) ctx.now = false →
          r.external.rise = (exM.rise <|> joinFind (nextDayExtended exM.rise
            (prov.ext ctx.dayAfterTomorrow) Ev.rise ctx.now))) ∧
        (hasQualBefore [pyT.set, pyM.set] ctx.now = false →
          r.internal.set = (pyT.set <|> pyM.set)) ∧
        (hasQualBefore [exT.set, exM.set] ctx.now = false →
          r.external.set = (exT.set <|> exM.set))) := by
  refine ⟨?_, ?_, ?_⟩
  · intro ctx prov pyT exT pyY exY hup hpt het hpy hey hne
    rw [useMoonToday_above_eq ctx prov pyT exT pyY exY hup hpt het hpy hey hne]
    refine ⟨_, rfl, fun h => ?_, fun h => ?_, fun h => ?_, fun h => ?_⟩
    · show (pickLatestBeforeIso [pyT.rise, pyY.rise] ctx.now <|>
        (pyT.rise <|> pyY.rise)) = (pyT.rise <|> pyY.rise)
      rw [pickLatestBefore_none _ _ h]
      simp
    · show (pickLatestBeforeIso [exT.rise, exY.rise] ctx.now <|>
        (exT.rise <|> exY.rise)) = (exT.rise <|> exY.rise)
      rw [pickLatestBefore_none _ _ h]
      simp
    · show (pickEarliestAfterIso (nextDayExtended pyT.set
        (prov.py ctx.tomorrow) Ev.set ctx.now) ctx.now <|>
        (pyT.set <|> joinFind (nextDayExtended pyT.set (prov.py ctx.tomorrow)
          Ev.set ctx.now))) =
        (pyT.set <|> joinFind (nextDayExtended pyT.set (prov.py ctx.tomorrow)
          Ev.set ctx.now))
      rw [pickEarliestAfter_none _ _ h]
      simp
    · show (pickEarliestAfterIso (nextDayExtended exT.set
        (prov.ext ctx.tomorrow) Ev.set ctx.now) ctx.now <|>
        (exT.set <|> joinFind (nextDayExtended exT.set (prov.ext ctx.tomorrow)
          Ev.set ctx.now))) =
        (exT.set <|> joinFind (nextDayExtended exT.set (prov.ext ctx.tomorrow)
          Ev.set ctx.now))
      rw [pickEarliestAfter_none _ _ h]
      simp
  · intro ctx prov pyT exT pyY exY hdn hpt het hpy hey hne hnp
    rw [useMoonToday_below_eq ctx prov pyT exT pyY exY hdn hpt het hpy hey
      hne hnp]
    refine ⟨_, rfl, fun h => ?_, fun h => ?_, fun h => ?_, fun h => ?_⟩
    · show (pickEarliestAfterIso (nextDayExtended pyT.rise
        (prov.py ctx.tomorrow) Ev.rise ctx.now) ctx.now <|>
        (pyT.rise <|> joinFind (nextDayExtended pyT.rise (prov.py ctx.tomorrow)
          Ev.rise ctx.now))) =
        (pyT.rise <|> joinFind (nextDayExtended pyT.rise (prov.py ctx.tomorrow)
          Ev.rise ctx.now))
      rw [pickEarliestAfter_none _ _ h]
      simp
    · show (pickEarliestAfterIso (nextDayExtended exT.rise
        (prov.ext ctx.tomorrow) Ev.rise ctx.now) ctx.now <|>
        (exT.rise <|> joinFind (nextDayExtended exT.rise (prov.ext ctx.tomorrow)
          Ev.rise ctx.now))) =
        (exT.rise <|> joinFind (nextDayExtended exT.rise (prov.ext ctx.tomorrow)
          Ev.rise ctx.now))
      rw [pickEarliestAfter_none _ _ h]
      simp
    · show (pickLatestBeforeIso [pyY.set, pyT.set] ctx.now <|>
        (pyY.set <|> pyT.set)) = (pyY.set <|> pyT.set)
      rw [pickLatestBefore_none _ _ h]
      simp
    · show (pickLatestBeforeIso [exY.set, exT.set] ctx.now <|>
        (exY.set <|> exT.set)) = (exY.set <|> exT.set)
      rw [pickLatestBefore_none _ _ h]
      simp
  · intro ctx prov pyT exT pyM exM hdn hpt het hpm hem hmt hp
    rw [useMoonToday_rollover_eq ctx prov pyT exT pyM exM hdn hpt het hpm
      hem hmt hp]
    refine ⟨_, rfl, fun h => ?_, fun h => ?_, fun h => ?_, fun h => ?_⟩
    · show (pickEarliestAfterIso (nextDayExtended pyM.rise
        (prov.py ctx.dayAfterTomorrow) Ev.rise ctx.now) ctx.now <|>
        (pyM.rise <|> joinFind (nextDayExtended pyM.rise
          (prov.py ctx.dayAfterTomorrow) Ev.rise ctx.now))) =
        (pyM.rise <|> joinFind (nextDayExtended pyM.rise
          (prov.py ctx.dayAfterTomorrow) Ev.rise ctx.now))
      rw [pickEarliestAfter_none _ _ h]
      simp
    · show (pickEarliestAfterIso (nextDayExtended exM.rise
        (prov.ext ctx.dayAfterTomorrow) Ev.rise ctx.now) ctx.now <|>
        (exM.rise <|> joinFind (nextDayExtended exM.rise
          (prov.ext ctx.dayAfterTomorrow) Ev.rise ctx.now))) =
        (exM.rise <|> joinFind (nextDayExtended exM.rise
          (prov.ext ctx.dayAfterTomorrow) Ev.rise ctx.now))
      rw [pickEarliestAfter_none _ _ h]
      simp
    · show (pickLatestBeforeIso [pyT.set, pyM.set] ctx.now <|>
        (pyT.set <|> pyM.set)) = (pyT.set <|> pyM.set)
      rw [pickLatestBefore_none _ _ h]
      simp
    · show (pickLatestBeforeIso [exT.set, exM.set] ctx.now <|>
        (exT.set <|> exM.set)) = (exT.set <|> exM.set)
      rw [pickLatestBefore_none _ _ h]
      simp

theorem useMoonToday_fallback_spec_witness :
    (∃ r, useMoonToday c9Ctx c9Prov = Except.ok r ∧
      (hasQualBefore [c9Ev.rise, c9EvY.rise] c9Ctx.now = false →
        r.internal.rise = (c9Ev.rise <|> c9EvY.rise)) ∧
      (hasQualBefore [c9Ev.rise, c9EvY.rise] c9Ctx.now = false →
        r.external.rise = (c9Ev.rise <|> c9EvY.rise)) ∧
      (hasQualAfter (nextDayExtended c9Ev.set (c9Prov.py c9Ctx.tomorrow)
          Ev.set c9Ctx.now) c9Ctx.now = false →
        r.internal.set = (c9Ev.set <|> joinFind (nextDayExtended c9Ev.set
          (c9Prov.py c9Ctx.tomorrow) Ev.set c9Ctx.now))) ∧
      (hasQualAfter (nextDayExtended c9Ev.set (c9Prov.ext c9Ctx.tomorrow)
          Ev.set c9Ctx.now) c9Ctx.now = false →
        r.external.set = (c9Ev.set <|> joinFind (nextDayExtended c9Ev.set
          (c9Prov.ext c9Ctx.tomorrow) Ev.set c9Ctx.now)))) ∧
    (∃ r, useMoonToday c9rCtx c9rProv = Except.ok r ∧
      (hasQualAfter (nextDayExtended c9rEvM.rise (c9rProv.py
          c9rCtx.dayAfterTomorrow) Ev.rise c9rCtx.now) c9rCtx.now = false →
        r.internal.rise = (c9rEvM.rise <|> joinFind (nextDayExtended
          c9rEvM.rise (c9rProv.py c9rCtx.dayAfterTomorrow) Ev.rise
          c9rCtx.now))) ∧
      (hasQualAfter (nextDayExtended c9rEvM.rise (c9rProv.ext
          c9rCtx.dayAfterTomorrow) Ev.rise c9rCtx.now) c9rCtx.now = false →
        r.external.rise = (c9rEvM.rise <|> joinFind (nextDayExtended
          c9rEvM.rise (c9rProv.ext c9rCtx.dayAfterTomorrow) Ev.rise
          c9rCtx.now))) ∧
      (hasQualBefore [c9rEvT.set, c9rEvM.set] c9rCtx.now = false →
        r.internal.set = (c9rEvT.set <|> c9rEvM.set)) ∧
      (hasQualBefore [c9rEvTx.set, c9rEvM.set] c9rCtx.now = false →
        r.external.set = (c9rEvTx.set <|> c9rEvM.set))) :=
  ⟨useMoonToday_fallback_spec.1 c9Ctx c9Prov c9Ev c9Ev c9EvY c9EvY
      (by decide) rfl rfl rfl rfl (by decide),
    useMoonToday_fallback_spec.2.2 c9rCtx c9rProv c9rEvT c9rEvTx c9rEvM c9rEvM
      (by decide) rfl rfl rfl rfl (by decide) (by decide)⟩
